import Mathlib

/-!
Verification development for the cbb-analytics ingestion/aggregation pipeline
(backend/clients/cbbdata.py, backend/main.py, backend/scripts/refresh.py,
backend/db.py).

Python values flowing through the row dictionaries are modelled by the
inductive type `Val`: `vnone` is Python `None` (and SQL NULL), `vnan`,
`vinf`, `vninf` are the non-finite floats, `vfloat` carries a finite float
modelled as an exact rational, `vdate` is a `datetime.date` carrying its
ISO string.  Row dictionaries are association lists in insertion order,
matching Python 3.7+ dict semantics (updates keep position, new keys
append).  Strings inside the season-label converter are modelled as
`List Char` so that splitting and integer parsing are explicit.
-/

set_option autoImplicit false

namespace CbbAnalytics

/-- Python scalar values as they appear in the row dicts of this code base. -/
inductive Val where
  | vnone : Val
  | vbool : Bool → Val
  | vint : Int → Val
  | vfloat : ℚ → Val
  | vnan : Val
  | vinf : Val
  | vninf : Val
  | vstr : String → Val
  | vdate : String → Val
deriving DecidableEq, Repr

/-- True exactly for the three non-finite float values (NaN, +inf, -inf). -/
def Val.isNonFinite : Val → Bool
  | .vnan => true
  | .vinf => true
  | .vninf => true
  | _ => false

/-- Python truthiness, used by the `or` fallbacks in the source. -/
def Val.isTruthy : Val → Bool
  | .vnone => false
  | .vbool b => b
  | .vint i => !(i == 0)
  | .vfloat q => !(q == 0)
  | .vnan => true
  | .vinf => true
  | .vninf => true
  | .vstr s => !(s == "")
  | .vdate _ => true

/-- The `_clean` helper of cbbdata.py and main.py: a float that is NaN or
infinite becomes None; every other value passes unchanged. -/
def clean (v : Val) : Val :=
  if v.isNonFinite then Val.vnone else v

/-- A Python dict of scalars, as an association list in insertion order. -/
abbrev Dict := List (String × Val)

/-- Lookup: `k in row` together with `row[k]`. -/
def dictFind (row : Dict) (k : String) : Option Val :=
  (row.find? (fun kv => kv.1 == k)).map (fun kv => kv.2)

/-- The membership test `k in row`. -/
def dictContains (row : Dict) (k : String) : Bool :=
  (dictFind row k).isSome

/-- Python `row.get(k)`: the stored value, or None when the key is absent.
Note an explicitly stored None and an absent key are indistinguishable
through `get`, exactly as in Python. -/
def pyGet (row : Dict) (k : String) : Val :=
  (dictFind row k).getD Val.vnone

/-- Python `row[k] = v`: overwrite in place when the key exists, else append. -/
def dictSet (row : Dict) (k : String) (v : Val) : Dict :=
  if dictContains row k then
    row.map (fun kv => if kv.1 == k then (k, v) else kv)
  else
    row ++ [(k, v)]

/-- Python `row.pop(k, None)` restricted to its removal effect. -/
def dictRemove (row : Dict) (k : String) : Dict :=
  row.filter (fun kv => !(kv.1 == k))

/-- PLAYER_FIELD_MAP of cbbdata.py (upstream column → canonical name). -/
def PLAYER_FIELD_MAP : List (String × String) :=
  [("id", "torvik_id"), ("player", "name"), ("team", "team"),
   ("conf", "conference"), ("pos", "position"), ("exp", "year_in_school"),
   ("hgt", "height"), ("g", "games"), ("mpg", "mpg"), ("ppg", "pts"),
   ("rpg", "reb"), ("apg", "ast"), ("spg", "stl"), ("bpg", "blk"),
   ("tov", "tov"), ("usg", "usg_pct"), ("ts", "ts_pct"), ("efg", "efg_pct"),
   ("ftr", "ftr"), ("ortg", "ortg"), ("drtg", "drtg"), ("bpm", "bpm"),
   ("obpm", "obpm"), ("dbpm", "dbpm"), ("porpag", "porpag"),
   ("fg_pct", "fg_pct"), ("three_pct", "three_pct"), ("ft_pct", "ft_pct")]

/-- TEAM_FIELD_MAP of cbbdata.py. -/
def TEAM_FIELD_MAP : List (String × String) :=
  [("team", "name"), ("conf", "conference"), ("adj_o", "ortg"),
   ("adj_d", "drtg"), ("adj_t", "pace"), ("barthag", "barthag"),
   ("wab", "wab"), ("nc_cur_sos", "nc_sos"), ("ov_cur_sos", "ov_sos"),
   ("seed", "seed")]

/-- TEAM_GAME_BOX_FIELD_MAP of cbbdata.py. -/
def TEAM_GAME_BOX_FIELD_MAP : List (String × String) :=
  [("game_id", "game_id"), ("date", "date"), ("type", "type"),
   ("location", "location"), ("result", "result"), ("team", "team_name"),
   ("opp", "opponent"), ("opp_conf", "opp_conf"), ("min", "min"),
   ("pos", "pos"), ("pts", "pts"), ("fgm", "fgm"), ("fga", "fga"),
   ("tpm", "tpm"), ("tpa", "tpa"), ("ftm", "ftm"), ("fta", "fta"),
   ("oreb", "oreb"), ("dreb", "dreb"), ("reb", "reb"), ("ast", "ast"),
   ("stl", "stl"), ("blk", "blk"), ("to", "tov"), ("opp_pts", "opp_pts"),
   ("opp_fgm", "opp_fgm"), ("opp_fga", "opp_fga"), ("opp_tpm", "opp_tpm"),
   ("opp_tpa", "opp_tpa"), ("opp_ftm", "opp_ftm"), ("opp_fta", "opp_fta"),
   ("opp_oreb", "opp_oreb"), ("opp_dreb", "opp_dreb"), ("opp_reb", "opp_reb"),
   ("opp_ast", "opp_ast"), ("opp_stl", "opp_stl"), ("opp_blk", "opp_blk"),
   ("opp_to", "opp_tov")]

/-- GAME_LOG_FIELD_MAP of cbbdata.py. -/
def GAME_LOG_FIELD_MAP : List (String × String) :=
  [("date", "date"), ("opp", "opponent"), ("result", "result"),
   ("loc", "location"), ("min", "min"), ("pts", "pts"), ("reb", "reb"),
   ("ast", "ast"), ("stl", "stl"), ("blk", "blk"), ("tov", "tov"),
   ("two_m", "two_m"), ("two_a", "two_a"), ("three_m", "three_m"),
   ("three_a", "three_a"), ("ftm", "ftm"), ("fta", "fta"), ("ortg", "ortg"),
   ("usg", "usg"), ("efg", "efg"), ("ts", "ts"), ("bpm", "bpm_game"),
   ("obpm", "obpm_game"), ("dbpm", "dbpm_game"), ("poss", "poss")]

/-- The two passthrough keys copied verbatim by `_remap`. -/
def passthroughKeys : List String := ["player_id", "team_id"]

/-- The `_remap` of cbbdata.py: copy the keys present in both the source row
and the field map, cleaning each copied value; then copy the `player_id` and
`team_id` keys verbatim (without cleaning) when present. -/
def remap (row : Dict) (fieldMap : List (String × String)) : Dict :=
  let base := fieldMap.foldl
    (fun out sd =>
      if dictContains row sd.1 then dictSet out sd.2 (clean (pyGet row sd.1))
      else out) []
  passthroughKeys.foldl
    (fun out k => if dictContains row k then dictSet out k (pyGet row k) else out)
    base

/-!
Season label conversion (`_season_to_year` / `_year_to_season`, identical in
cbbdata.py and main.py).  Labels are modelled as `List Char`.  `int(...)` is
modelled by `pyParseInt` below: strip ASCII whitespace, then an optional
sign, then a nonempty digit string in which single underscores may separate
digits (CPython's integer-literal rule for `int(str)`).  A raised
`ValueError` is the `none` result.
-/

/-- The ASCII whitespace characters stripped by Python `int(str)`. -/
def isPyWS (c : Char) : Bool :=
  c == ' ' || c == '\t' || c == '\n' || c == '\r' || c == '\x0b' || c == '\x0c'

/-- Strip leading and trailing whitespace. -/
def stripWS (l : List Char) : List Char :=
  ((l.dropWhile isPyWS).reverse.dropWhile isPyWS).reverse

/-- After a leading digit: digits, with single underscores between digits
(an underscore must be followed by a digit and cannot end the string). -/
def numTail : List Char → Bool
  | [] => true
  | [c] => !(c == '_') && c.isDigit
  | c :: c2 :: rest =>
    if c == '_' then c2.isDigit && numTail rest
    else c.isDigit && numTail (c2 :: rest)

/-- A digit string with optional single grouping underscores, nonempty,
starting with a digit. -/
def okDigits : List Char → Bool
  | [] => false
  | c :: rest => c.isDigit && numTail rest

/-- Numeric value of a digit string (underscores already removed). -/
def digitsVal (l : List Char) : Nat :=
  l.foldl (fun a c => 10 * a + (c.toNat - 48)) 0

/-- Value of the unsigned part: drop grouping underscores and fold. -/
def unsignedVal (l : List Char) : Nat :=
  digitsVal (l.filter (fun c => !(c == '_')))

/-- Python `int(str)`: `none` models a raised ValueError. -/
def pyParseInt (l : List Char) : Option Int :=
  match stripWS l with
  | '+' :: rest => if okDigits rest then some (unsignedVal rest : Int) else none
  | '-' :: rest => if okDigits rest then some (-(unsignedVal rest : Int)) else none
  | t => if okDigits t then some (unsignedVal t : Int) else none

/-- Python `s.split("-")[0]`: the characters before the first dash, the whole
string when no dash occurs (split never returns an empty list). -/
def splitHead (l : List Char) : List Char :=
  l.takeWhile (fun c => !(c == '-'))

/-- Whether the separator occurs in the label at all. -/
def hasDash (l : List Char) : Bool :=
  l.any (fun c => c == '-')

/-- Decimal digit character for d < 10, i.e. Python's digit rendering. -/
def digitChar (d : Nat) : Char := Char.ofNat (48 + d)

/-- Fuel-driven core of decimal rendering; fuel `n + 1` always suffices. -/
def natCharsCore : Nat → Nat → List Char → List Char
  | 0, _, acc => acc
  | fuel + 1, n, acc =>
    if n < 10 then digitChar n :: acc
    else natCharsCore fuel (n / 10) (digitChar (n % 10) :: acc)

/-- Python `str(n)` for a natural number. -/
def natChars (n : Nat) : List Char := natCharsCore (n + 1) n []

/-- Python `str(i)` for an integer (sign included). -/
def intChars (i : Int) : List Char :=
  if i < 0 then '-' :: natChars i.natAbs else natChars i.toNat

/-- The `_season_to_year` of cbbdata.py and main.py:
`int(season.split("-")[0]) + 1`, with the ValueError surfaced as `none`. -/
def season_to_year (s : List Char) : Option Int :=
  (pyParseInt (splitHead s)).map (fun n => n + 1)

/-- The `_year_to_season` of cbbdata.py and main.py:
`f"{year - 1}-{str(year)[2:]}"`. -/
def year_to_season (y : Int) : List Char :=
  intChars (y - 1) ++ '-' :: (intChars y).drop 2

/-- The claim's own notion of a valid season label: four digits, a dash, two
digits, with the leading segment parseable as an integer.  (Stated from the
claim's words, for comparison with what the code actually round-trips.) -/
def validLabelShape (l : List Char) : Bool :=
  match l with
  | [a, b, c, d, '-', e, f] =>
    a.isDigit && b.isDigit && c.isDigit && d.isDigit && e.isDigit && f.isDigit
  | _ => false

/-!
Percentile engine (`_compute_percentiles` in cbbdata.py and main.py, and
`_compute_team_percentiles` in main.py — the same algorithm over different
stat sets).  By the time rows reach these functions every tracked statistic
has passed `_clean` (via `_remap` or `_row_to_dict`), so a stat value is a
finite number or absent; rows are therefore modelled as association lists
from stat name to `Option ℚ`.
-/

/-- A row as seen by the percentile engine: tracked stats are finite numbers
or absent. -/
abbrev StatRow := List (String × Option ℚ)

/-- Python `p.get(stat)` merged with `p[stat]` on these rows. -/
def statGet (r : StatRow) (k : String) : Option ℚ :=
  ((r.find? (fun kv => kv.1 == k)).map (fun kv => kv.2)).getD none

/-- Python `round` on an exact rational: round half to even. -/
def pythonRound (q : ℚ) : Int :=
  if q - (⌊q⌋ : ℚ) < 1/2 then ⌊q⌋
  else if 1/2 < q - (⌊q⌋ : ℚ) then ⌊q⌋ + 1
  else if ⌊q⌋ % 2 = 0 then ⌊q⌋ else ⌊q⌋ + 1

/-- The `_HIGHER_IS_BETTER` player stat set (cbbdata.py and main.py). -/
def HIGHER_IS_BETTER : List String :=
  ["bpm", "obpm", "dbpm", "pts", "reb", "ast", "stl", "blk",
   "ts_pct", "usg_pct", "efg_pct", "ortg", "fg_pct", "three_pct",
   "ft_pct", "porpag", "mpg"]

/-- The `_LOWER_IS_BETTER` player stat set. -/
def LOWER_IS_BETTER : List String := ["drtg", "tov"]

/-- The `_TEAM_HIGHER` stat set of main.py. -/
def TEAM_HIGHER : List String :=
  ["ortg", "net_rtg", "efg_pct", "opp_tov_pct", "orb_pct", "drb_pct",
   "barthag", "wab", "pace"]

/-- The `_TEAM_LOWER` stat set of main.py. -/
def TEAM_LOWER : List String :=
  ["drtg", "opp_efg_pct", "tov_pct", "opp_ftr", "ftr"]

/-- One statistic of the percentile computation shared by
`_compute_percentiles` and `_compute_team_percentiles`: absent row value or
empty population value list gives an absent percentile; otherwise the rank
is `round(100 * |{v : v no better than value}| / |values|)`, where "no
better" is `≤` when higher is better and `≥` otherwise. -/
def computeStatPercentile (hib : Bool) (player : StatRow) (pop : List StatRow)
    (stat : String) : Option Int :=
  match statGet player stat with
  | none => none
  | some value =>
    if (pop.filterMap (fun p => statGet p stat)).isEmpty then none
    else
      some (pythonRound ((100 * (if hib then
          (pop.filterMap (fun p => statGet p stat)).countP (fun v => v ≤ value)
        else
          (pop.filterMap (fun p => statGet p stat)).countP (fun v => value ≤ v)) : ℚ)
        / ((pop.filterMap (fun p => statGet p stat)).length : ℚ)))

/-- The `_compute_percentiles` result dict (player stats).  The Python set
union is modelled as the concatenation of the two fixed stat lists; the dict
is order-insensitive for every property stated below. -/
def compute_percentiles (player : StatRow) (pop : List StatRow) :
    List (String × Option Int) :=
  (HIGHER_IS_BETTER ++ LOWER_IS_BETTER).map
    (fun stat =>
      (stat, computeStatPercentile (HIGHER_IS_BETTER.contains stat) player pop stat))

/-- The `_compute_team_percentiles` result dict (main.py). -/
def compute_team_percentiles (team : StatRow) (pop : List StatRow) :
    List (String × Option Int) :=
  (TEAM_HIGHER ++ TEAM_LOWER).map
    (fun stat =>
      (stat, computeStatPercentile (TEAM_HIGHER.contains stat) team pop stat))

/-!
Relational store (db.py) and the upsert layer (scripts/refresh.py).  A table
is a list of typed rows in physical order; the DB enforces the primary keys
stated in db.py, which the upsert models reproduce: season tables use
`ON CONFLICT ... DO UPDATE` (overwrite every non-key column), the team game
table uses `ON CONFLICT DO NOTHING`, the player game table has a SERIAL
tie-breaker in its key so plain INSERT never conflicts (the synthetic
`game_num` column itself carries no data and is omitted from the model).
`asyncpg.executemany` executes the statement once per record, sequentially.
-/

/-- One row of the player_seasons table (db.py). -/
structure PlayerSeason where
  player_id : Val
  year : Int
  name : Val
  team : Val
  conference : Val
  position : Val
  year_in_school : Val
  height : Val
  games : Val
  mpg : Val
  pts : Val
  reb : Val
  ast : Val
  stl : Val
  blk : Val
  tov : Val
  usg_pct : Val
  ts_pct : Val
  efg_pct : Val
  ftr : Val
  fg_pct : Val
  three_pct : Val
  ft_pct : Val
  ortg : Val
  drtg : Val
  bpm : Val
  obpm : Val
  dbpm : Val
  porpag : Val
deriving DecidableEq, Repr

/-- One row of the team_seasons table (db.py). -/
structure TeamSeason where
  team_id : Val
  year : Int
  name : Val
  conference : Val
  record : Val
  wins : Val
  losses : Val
  ortg : Val
  drtg : Val
  net_rtg : Val
  pace : Val
  barthag : Val
  wab : Val
  efg_pct : Val
  opp_efg_pct : Val
  tov_pct : Val
  opp_tov_pct : Val
  orb_pct : Val
  drb_pct : Val
  ftr : Val
  opp_ftr : Val
  nc_sos : Val
  ov_sos : Val
  seed : Val
deriving DecidableEq, Repr

/-- One row of the player_games table (db.py); the synthetic SERIAL
`game_num` column is omitted. -/
structure PlayerGame where
  player_id : Val
  year : Int
  date : Val
  opponent : Val
  result : Val
  location : Val
  min : Val
  pts : Val
  reb : Val
  ast : Val
  stl : Val
  blk : Val
  tov : Val
  two_m : Val
  two_a : Val
  three_m : Val
  three_a : Val
  ftm : Val
  fta : Val
  ortg : Val
  usg : Val
  efg : Val
  ts : Val
  bpm_game : Val
  obpm_game : Val
  dbpm_game : Val
  poss : Val
deriving DecidableEq, Repr

/-- One row of the team_games table (db.py); `gtype` is the `type` column. -/
structure TeamGame where
  team_id : Val
  year : Int
  game_id : Val
  date : Val
  gtype : Val
  location : Val
  result : Val
  opponent : Val
  opp_conf : Val
  min : Val
  pos : Val
  pts : Val
  fgm : Val
  fga : Val
  tpm : Val
  tpa : Val
  ftm : Val
  fta : Val
  oreb : Val
  dreb : Val
  reb : Val
  ast : Val
  stl : Val
  blk : Val
  tov : Val
  opp_pts : Val
  opp_fgm : Val
  opp_fga : Val
  opp_tpm : Val
  opp_tpa : Val
  opp_ftm : Val
  opp_fta : Val
  opp_oreb : Val
  opp_dreb : Val
  opp_reb : Val
  opp_ast : Val
  opp_stl : Val
  opp_blk : Val
  opp_tov : Val
deriving DecidableEq, Repr

/-- The four tables of the relational store. -/
structure DB where
  player_seasons : List PlayerSeason
  team_seasons : List TeamSeason
  player_games : List PlayerGame
  team_games : List TeamGame
deriving DecidableEq, Repr

/-- The empty store. -/
def emptyDB : DB := ⟨[], [], [], []⟩

section KeyedUpsert

variable {α : Type} {κ : Type} [DecidableEq κ]

/-- One `INSERT ... ON CONFLICT (key) DO UPDATE` statement against a table:
when a row with the record's key exists, it is rewritten to `merge old rec`
(`DO UPDATE SET` touches only the listed columns, which `merge` captures);
otherwise the record is appended.  The unique index guarantees at most one
match in a real table; the model rewrites every match. -/
def upsertRow (keyOf : α → κ) (merge : α → α → α) (t : List α) (rec : α) :
    List α :=
  if t.any (fun r => keyOf r == keyOf rec) then
    t.map (fun r => if keyOf r == keyOf rec then merge r rec else r)
  else t ++ [rec]

/-- `executemany` of the upsert statement: one sequential statement per
record. -/
def upsertAll (keyOf : α → κ) (merge : α → α → α) (t : List α)
    (rows : List α) : List α :=
  rows.foldl (upsertRow keyOf merge) t

/-- The primary-key invariant of a table: pairwise distinct keys. -/
def nodupKeysP (keyOf : α → κ) (t : List α) : Prop :=
  List.Pairwise (fun a b => keyOf a ≠ keyOf b) t

/-- Some row of the table carries the key. -/
def hasKey (keyOf : α → κ) (t : List α) (k : κ) : Prop :=
  ∃ r ∈ t, keyOf r = k

/-- Rows on both sides of a simulation between two tables: keys agree, and
any difference is confined to key `k`, where the two rows must become equal
as soon as a record is merged over them. -/
@[reducible]
def mergeRel (keyOf : α → κ) (merge : α → α → α) (k : κ) (a b : α) : Prop :=
  keyOf a = keyOf b ∧ (a = b ∨ (keyOf a = k ∧ ∀ c, merge a c = merge b c))

end KeyedUpsert

/-- Primary key of player_seasons. -/
def psKey (r : PlayerSeason) : Val × Int := (r.player_id, r.year)

/-- Primary key of team_seasons. -/
def tsKey (r : TeamSeason) : Val × Int := (r.team_id, r.year)

/-- The `DO UPDATE SET` of upsert_player_seasons lists every non-key
column, so a conflicting row is replaced wholesale. -/
def psMerge (_old rec : PlayerSeason) : PlayerSeason := rec

/-- The `DO UPDATE SET` of upsert_team_seasons lists only the T-Rank
columns; record, wins, losses and the four-factor columns of the existing
row are left untouched (they belong to update_team_season_aggregates). -/
def tsMerge (old rec : TeamSeason) : TeamSeason :=
  { old with
    name := rec.name, conference := rec.conference, ortg := rec.ortg,
    drtg := rec.drtg, net_rtg := rec.net_rtg, pace := rec.pace,
    barthag := rec.barthag, wab := rec.wab, nc_sos := rec.nc_sos,
    ov_sos := rec.ov_sos, seed := rec.seed }

/-- The record tuple built by upsert_player_seasons from one input row
(`row.get(...)` for each column, the year parameter for `year`). -/
def toPlayerSeasonRec (y : Int) (row : Dict) : PlayerSeason :=
  { player_id := pyGet row "player_id", year := y,
    name := pyGet row "name", team := pyGet row "team",
    conference := pyGet row "conference", position := pyGet row "position",
    year_in_school := pyGet row "year_in_school", height := pyGet row "height",
    games := pyGet row "games", mpg := pyGet row "mpg",
    pts := pyGet row "pts", reb := pyGet row "reb", ast := pyGet row "ast",
    stl := pyGet row "stl", blk := pyGet row "blk", tov := pyGet row "tov",
    usg_pct := pyGet row "usg_pct", ts_pct := pyGet row "ts_pct",
    efg_pct := pyGet row "efg_pct", ftr := pyGet row "ftr",
    fg_pct := pyGet row "fg_pct", three_pct := pyGet row "three_pct",
    ft_pct := pyGet row "ft_pct", ortg := pyGet row "ortg",
    drtg := pyGet row "drtg", bpm := pyGet row "bpm",
    obpm := pyGet row "obpm", dbpm := pyGet row "dbpm",
    porpag := pyGet row "porpag" }

/-- The record tuple built by upsert_team_seasons from one input row; the
columns not in its INSERT list (record, wins, losses, four factors) start
as NULL. -/
def toTeamSeasonRec (y : Int) (row : Dict) : TeamSeason :=
  { team_id := pyGet row "team_id", year := y,
    name := pyGet row "name", conference := pyGet row "conference",
    record := Val.vnone, wins := Val.vnone, losses := Val.vnone,
    ortg := pyGet row "ortg", drtg := pyGet row "drtg",
    net_rtg := pyGet row "net_rtg", pace := pyGet row "pace",
    barthag := pyGet row "barthag", wab := pyGet row "wab",
    efg_pct := Val.vnone, opp_efg_pct := Val.vnone, tov_pct := Val.vnone,
    opp_tov_pct := Val.vnone, orb_pct := Val.vnone, drb_pct := Val.vnone,
    ftr := Val.vnone, opp_ftr := Val.vnone,
    nc_sos := pyGet row "nc_sos", ov_sos := pyGet row "ov_sos",
    seed := pyGet row "seed" }

/-- upsert_player_seasons of scripts/refresh.py: empty input returns 0 at
once; otherwise one merge-upsert per record, returning the record count. -/
def upsert_player_seasons (y : Int) (rows : List Dict) (db : DB) : Int × DB :=
  if rows.isEmpty then (0, db)
  else
    let records := rows.map (toPlayerSeasonRec y)
    ((records.length : Int),
     { db with player_seasons := upsertAll psKey psMerge db.player_seasons records })

/-- upsert_team_seasons of scripts/refresh.py (T-Rank fields only). -/
def upsert_team_seasons (y : Int) (rows : List Dict) (db : DB) : Int × DB :=
  if rows.isEmpty then (0, db)
  else
    let records := rows.map (toTeamSeasonRec y)
    ((records.length : Int),
     { db with team_seasons := upsertAll tsKey tsMerge db.team_seasons records })

/-- Conversion applied to the date value inside the upsert_team_games row
loop: a date object becomes its ISO string `d.isoformat()`; strings and
None pass through.  (A non-date, non-string value would raise in Python;
such values pass unchanged here and are outside every theorem below.) -/
def valIso (v : Val) : Val :=
  match v with
  | .vdate s => .vstr s
  | x => x

/-- The record tuple built by upsert_team_games from one input row. -/
def toTeamGameRec (y : Int) (row : Dict) : TeamGame :=
  { team_id := pyGet row "team_id", year := y, game_id := pyGet row "game_id",
    date := valIso (pyGet row "date"), gtype := pyGet row "type",
    location := pyGet row "location", result := pyGet row "result",
    opponent := pyGet row "opponent", opp_conf := pyGet row "opp_conf",
    min := pyGet row "min", pos := pyGet row "pos", pts := pyGet row "pts",
    fgm := pyGet row "fgm", fga := pyGet row "fga", tpm := pyGet row "tpm",
    tpa := pyGet row "tpa", ftm := pyGet row "ftm", fta := pyGet row "fta",
    oreb := pyGet row "oreb", dreb := pyGet row "dreb", reb := pyGet row "reb",
    ast := pyGet row "ast", stl := pyGet row "stl", blk := pyGet row "blk",
    tov := pyGet row "tov", opp_pts := pyGet row "opp_pts",
    opp_fgm := pyGet row "opp_fgm", opp_fga := pyGet row "opp_fga",
    opp_tpm := pyGet row "opp_tpm", opp_tpa := pyGet row "opp_tpa",
    opp_ftm := pyGet row "opp_ftm", opp_fta := pyGet row "opp_fta",
    opp_oreb := pyGet row "opp_oreb", opp_dreb := pyGet row "opp_dreb",
    opp_reb := pyGet row "opp_reb", opp_ast := pyGet row "opp_ast",
    opp_stl := pyGet row "opp_stl", opp_blk := pyGet row "opp_blk",
    opp_tov := pyGet row "opp_tov" }

/-- Key comparison of the team_games primary key (team_id, year, game_id). -/
def tgKeyMatch (g rec : TeamGame) : Bool :=
  g.team_id == rec.team_id && g.year == rec.year && g.game_id == rec.game_id

/-- One `INSERT ... ON CONFLICT (team_id, year, game_id) DO NOTHING`. -/
def insertTeamGameRow (t : List TeamGame) (rec : TeamGame) : List TeamGame :=
  if t.any (fun g => tgKeyMatch g rec) then t else t ++ [rec]

/-- Pairwise-distinct (team_id, year, game_id) keys within a record batch:
no later record conflicts with an earlier one. -/
def tgNodup : List TeamGame → Bool
  | [] => true
  | g :: gs => gs.all (fun h => !(tgKeyMatch g h)) && tgNodup gs

/-- upsert_team_games of scripts/refresh.py: an empty input returns 0
before anything is deleted; otherwise every row of the year is deleted and
the fresh records are inserted sequentially with DO NOTHING on key
conflict. -/
def upsert_team_games (y : Int) (rows : List Dict) (db : DB) : Int × DB :=
  if rows.isEmpty then (0, db)
  else
    let kept := db.team_games.filter (fun g => !(g.year == y))
    let records := rows.map (toTeamGameRec y)
    ((records.length : Int),
     { db with team_games := records.foldl insertTeamGameRow kept })

/-- The record tuple built by upsert_player_games from one input row. -/
def toPlayerGameRec (y : Int) (row : Dict) : PlayerGame :=
  { player_id := pyGet row "player_id", year := y, date := pyGet row "date",
    opponent := pyGet row "opponent", result := pyGet row "result",
    location := pyGet row "location", min := pyGet row "min",
    pts := pyGet row "pts", reb := pyGet row "reb", ast := pyGet row "ast",
    stl := pyGet row "stl", blk := pyGet row "blk", tov := pyGet row "tov",
    two_m := pyGet row "two_m", two_a := pyGet row "two_a",
    three_m := pyGet row "three_m", three_a := pyGet row "three_a",
    ftm := pyGet row "ftm", fta := pyGet row "fta", ortg := pyGet row "ortg",
    usg := pyGet row "usg", efg := pyGet row "efg", ts := pyGet row "ts",
    bpm_game := pyGet row "bpm_game", obpm_game := pyGet row "obpm_game",
    dbpm_game := pyGet row "dbpm_game", poss := pyGet row "poss" }

/-- upsert_player_games of scripts/refresh.py: an empty input returns 0
before anything is deleted; otherwise delete the year's rows and re-insert
all records (the SERIAL tie-breaker makes every plain INSERT succeed). -/
def upsert_player_games (y : Int) (rows : List Dict) (db : DB) : Int × DB :=
  if rows.isEmpty then (0, db)
  else
    let kept := db.player_games.filter (fun g => !(g.year == y))
    ((rows.length : Int),
     { db with player_games := kept ++ rows.map (toPlayerGameRec y) })

/-!
Aggregation engine (`update_team_season_aggregates`).  The SQL arithmetic
is modelled over exact rationals: the eFG paths are NUMERIC (exact decimal)
in Postgres; the remaining ratio paths go through double precision, which
the model idealizes as exact — the only effect of that idealization is at
ulp distance from a half-way rounding point, far below the one-decimal
`ROUND`.  SQL `SUM` skips NULL summands and is NULL over an empty set of
non-NULL values; `x + y` and `x / y` are NULL when either side is;
`NULLIF(x, 0)` turns 0 into NULL.
-/

/-- Numeric reading of a stored cell, for the SQL arithmetic. -/
def valQ : Val → Option ℚ
  | .vint i => some (i : ℚ)
  | .vfloat q => some q
  | _ => none

/-- SQL SUM over a column expression: NULL rows are skipped; the sum of no
rows is NULL. -/
def sqlSum (l : List (Option ℚ)) : Option ℚ :=
  if (l.filterMap id).isEmpty then none else some (l.filterMap id).sum

/-- SQL NULLIF(x, 0). -/
def nullifZero (o : Option ℚ) : Option ℚ :=
  o.bind (fun v => if v = 0 then none else some v)

/-- SQL division with NULL propagation. -/
def sqlDiv (a b : Option ℚ) : Option ℚ :=
  a.bind (fun x => b.map (fun y => x / y))

/-- SQL addition with NULL propagation. -/
def sqlAdd (a b : Option ℚ) : Option ℚ :=
  match a, b with
  | some x, some y => some (x + y)
  | _, _ => none

/-- A `NULLIF(num, 0) / NULLIF(den, 0)` ratio of the aggregate subquery. -/
def ratioOf (num den : Option ℚ) : Option ℚ :=
  sqlDiv (nullifZero num) (nullifZero den)

/-- Postgres `ROUND(x, 1)` on NUMERIC: half away from zero, one decimal. -/
def round1 (q : ℚ) : ℚ :=
  if q < 0 then -((⌊(-q) * 10 + 1/2⌋ : ℚ) / 10)
  else (⌊q * 10 + 1/2⌋ : ℚ) / 10

/-- `ROUND(CAST(raw * 100 AS NUMERIC), 1)` written back to the row; NULL
stays NULL. -/
def storeRatio (o : Option ℚ) : Val :=
  match o with
  | none => Val.vnone
  | some r => Val.vfloat (round1 (r * 100))

/-- Per-game `fgm + 0.5 * tpm`. -/
def efgNumExpr (g : TeamGame) : Option ℚ :=
  sqlAdd (valQ g.fgm) ((valQ g.tpm).map (fun b => (1/2 : ℚ) * b))

/-- Per-game `opp_fgm + 0.5 * opp_tpm`. -/
def oppEfgNumExpr (g : TeamGame) : Option ℚ :=
  sqlAdd (valQ g.opp_fgm) ((valQ g.opp_tpm).map (fun b => (1/2 : ℚ) * b))

/-- Per-game `fga + 0.44 * fta + tov`. -/
def tovDenExpr (g : TeamGame) : Option ℚ :=
  sqlAdd (sqlAdd (valQ g.fga) ((valQ g.fta).map (fun b => (11/25 : ℚ) * b)))
    (valQ g.tov)

/-- Per-game `opp_fga + 0.44 * opp_fta + opp_tov`. -/
def oppTovDenExpr (g : TeamGame) : Option ℚ :=
  sqlAdd (sqlAdd (valQ g.opp_fga) ((valQ g.opp_fta).map (fun b => (11/25 : ℚ) * b)))
    (valQ g.opp_tov)

/-- The per-team aggregate row applied onto a team_seasons row: W/L counts,
the formatted record string, and the eight four-factor ratios. -/
def applyAgg (G : List TeamGame) (ts : TeamSeason) : TeamSeason :=
  let wins := G.countP (fun g => g.result == Val.vstr "W")
  let losses := G.countP (fun g => g.result == Val.vstr "L")
  { ts with
    wins := Val.vint (wins : Int), losses := Val.vint (losses : Int),
    record := Val.vstr (toString wins ++ "-" ++ toString losses),
    efg_pct := storeRatio (ratioOf (sqlSum (G.map efgNumExpr))
      (sqlSum (G.map (fun g => valQ g.fga)))),
    opp_efg_pct := storeRatio (ratioOf (sqlSum (G.map oppEfgNumExpr))
      (sqlSum (G.map (fun g => valQ g.opp_fga)))),
    tov_pct := storeRatio (ratioOf (sqlSum (G.map (fun g => valQ g.tov)))
      (sqlSum (G.map tovDenExpr))),
    opp_tov_pct := storeRatio (ratioOf (sqlSum (G.map (fun g => valQ g.opp_tov)))
      (sqlSum (G.map oppTovDenExpr))),
    orb_pct := storeRatio (ratioOf (sqlSum (G.map (fun g => valQ g.oreb)))
      (sqlSum (G.map (fun g => sqlAdd (valQ g.oreb) (valQ g.opp_dreb))))),
    drb_pct := storeRatio (ratioOf (sqlSum (G.map (fun g => valQ g.dreb)))
      (sqlSum (G.map (fun g => sqlAdd (valQ g.dreb) (valQ g.opp_oreb))))),
    ftr := storeRatio (ratioOf (sqlSum (G.map (fun g => valQ g.fta)))
      (sqlSum (G.map (fun g => valQ g.fga)))),
    opp_ftr := storeRatio (ratioOf (sqlSum (G.map (fun g => valQ g.opp_fta)))
      (sqlSum (G.map (fun g => valQ g.opp_fga)))) }

/-- The effect of the UPDATE ... FROM (subquery) join on one team_seasons
row: a row is touched exactly when its year matches and the year's
team_games contain at least one row with an equal (non-NULL) team_id —
GROUP BY produces a group only for team_ids that occur, and a SQL equality
join never matches NULL. -/
def aggRow (y : Int) (games : List TeamGame) (ts : TeamSeason) : TeamSeason :=
  if ts.year == y && !(ts.team_id == Val.vnone)
      && games.any (fun g => g.team_id == ts.team_id) then
    applyAgg (games.filter (fun g => g.team_id == ts.team_id)) ts
  else ts

/-- update_team_season_aggregates of scripts/refresh.py.  Returns the count
of the follow-up `SELECT COUNT(*) ... WHERE year = $1 AND wins IS NOT
NULL`, and the updated store. -/
def update_team_season_aggregates (y : Int) (db : DB) : Int × DB :=
  let games := db.team_games.filter (fun g => g.year == y)
  let newTS := db.team_seasons.map (aggRow y games)
  (((newTS.filter (fun ts => ts.year == y && !(ts.wins == Val.vnone))).length : Int),
   { db with team_seasons := newTS })

/-!
Row-processing and fetch wrappers (get_player_games in cbbdata.py,
fetch_and_store_games and fetch_and_store_team_games in scripts/refresh.py).
The outcome of `_fetch_parquet` is passed in as an `Except`: `error`
models any raised exception (network, auth, decode).  Conversions that
would raise inside a row loop (`int()` on an unconvertible value,
`.lower()` on a non-string) are modelled by dropping the row; every theorem
below is insensitive to that corner, which the comments flag.
-/

/-- Truncation toward zero, as Python `int(float)`. -/
def ratTrunc (q : ℚ) : Int :=
  if q < 0 then -⌊(-q : ℚ)⌋ else ⌊q⌋

/-- Python `int(v)` on a scalar; `none` models a raised error. -/
def pyIntVal : Val → Option Int
  | .vint i => some i
  | .vbool b => some (if b then 1 else 0)
  | .vfloat q => some (ratTrunc q)
  | .vstr s => pyParseInt s.data
  | _ => none

/-- Python `str(i)` as a `String`. -/
def pyStr (i : Int) : String := ⟨intChars i⟩

/-- Python `int(v or 0)`: a falsy value counts as 0. -/
def pyIntOr0 (v : Val) : Option Int :=
  if v.isTruthy then pyIntVal v else some 0

/-- Python `s.lower().replace(" ", "_")` on ASCII text (the slug used for
missing team identifiers). -/
def pySlug (s : String) : String :=
  ⟨s.data.map (fun c => if c == ' ' then '_' else c.toLower)⟩

/-- The isoformat conversion `if d is not None and not isinstance(d, str):
mapped["date"] = d.isoformat()` applied to a mapped row; only an actual
date object converts. -/
def fixDate (m : Dict) : Dict :=
  match dictFind m "date" with
  | some (Val.vdate s) => dictSet m "date" (Val.vstr s)
  | _ => m

/-- Sort key `r.get("date") or ""` of get_player_games (dates here are ISO
strings or date objects; anything else sorts as the empty string). -/
def sortKey (r : Dict) : String :=
  match pyGet r "date" with
  | .vstr s => s
  | .vdate s => s
  | _ => ""

/-- One row of the get_player_games loop: discard the row when the
upstream id is absent or differs from the requested one; otherwise remap
and attach the combined `fg` display string. -/
def gameLogKeep (tid : String) (row : Dict) : Option Dict :=
  match pyGet row "id" with
  | Val.vnone => none
  | v =>
    match pyIntVal v with
    | none => none
    | some i =>
      if pyStr i == tid then
        match pyIntOr0 (pyGet row "two_m"), pyIntOr0 (pyGet row "two_a"),
            pyIntOr0 (pyGet row "three_m"), pyIntOr0 (pyGet row "three_a") with
        | some tm, some ta, some hm, some ha =>
          some (dictSet (remap row GAME_LOG_FIELD_MAP) "fg"
            (Val.vstr (pyStr (tm + hm) ++ "-" ++ pyStr (ta + ha))))
        | _, _, _, _ => none
      else none

/-- The pure core of get_player_games (cbbdata.py): filter and map the
fetched rows, then sort most-recent-first (stable, by the date key). -/
def get_player_games_rows (tid : String) (rows : List Dict) : List Dict :=
  (rows.filterMap (gameLogKeep tid)).mergeSort
    (fun a b => sortKey b ≤ sortKey a)

/-- One row of the fetch_and_store_games loop: rows without an upstream id
are discarded (`continue`), all others get `player_id = str(int(id))` and
an ISO date. -/
def storeGameLogRow (row : Dict) : Option Dict :=
  match pyGet row "id" with
  | Val.vnone => none
  | v =>
    (pyIntVal v).map (fun i =>
      fixDate (dictSet (remap row GAME_LOG_FIELD_MAP) "player_id"
        (Val.vstr (pyStr i))))

/-- fetch_and_store_games of scripts/refresh.py: a fetch failure or an
empty snapshot is caught and reported as zero rows, leaving the store
untouched; otherwise the processed rows replace the year's player games. -/
def fetch_and_store_games (y : Int) (fetched : Except String (List Dict))
    (db : DB) : Int × DB :=
  match fetched with
  | .error _ => (0, db)
  | .ok rowsRaw =>
    if rowsRaw.isEmpty then (0, db)
    else upsert_player_games y (rowsRaw.filterMap storeGameLogRow) db

/-- One row of the fetch_and_store_team_games loop: pop the mapped team
name, skip the row when it is falsy, resolve team_id from the year's
team_seasons (a Python dict comprehension, so the last row with a given
name wins) falling back to the name slug, and convert the date. -/
def teamGameProcess (nameToId : List (Val × Val)) (row : Dict) : Option Dict :=
  let mapped := remap row TEAM_GAME_BOX_FIELD_MAP
  let teamName := pyGet mapped "team_name"
  let mapped2 := dictRemove mapped "team_name"
  if !teamName.isTruthy then none
  else
    let found := (((nameToId.reverse.find? (fun kv => kv.1 == teamName)).map
      (fun kv => kv.2)).getD Val.vnone)
    let tid? : Option Val :=
      if found.isTruthy then some found
      else match teamName with
        | .vstr s => some (.vstr (pySlug s))
        | _ => none
    match tid? with
    | none => none
    | some tid => some (fixDate (dictSet mapped2 "team_id" tid))

/-- fetch_and_store_team_games of scripts/refresh.py: a fetch failure or an
empty snapshot is caught and reported as (0, 0) rows, leaving the store
untouched; otherwise the processed rows replace the year's team games and
the aggregates are recomputed. -/
def fetch_and_store_team_games (y : Int) (fetched : Except String (List Dict))
    (db : DB) : (Int × Int) × DB :=
  match fetched with
  | .error _ => ((0, 0), db)
  | .ok rowsRaw =>
    if rowsRaw.isEmpty then ((0, 0), db)
    else
      let nameToId := (db.team_seasons.filter (fun ts => ts.year == y)).map
        (fun ts => (ts.name, ts.team_id))
      let result := rowsRaw.filterMap (teamGameProcess nameToId)
      let r1 := upsert_team_games y result db
      let r2 := update_team_season_aggregates y r1.2
      ((r1.1, r2.1), r2.2)

/-!
Concrete inputs used by witnesses and counterexamples.
-/

/-- A freshly upserted team-season row (derived columns NULL). -/
def tsFresh : TeamSeason :=
  toTeamSeasonRec 2024 [("team_id", Val.vstr "duke"), ("name", Val.vstr "Duke")]

/-- A store holding one team-season row and no games at all. -/
def dbC2 : DB := { emptyDB with team_seasons := [tsFresh] }

/-- Game A of the spec's worked example, as an upsert input row. -/
def dictGameA : Dict :=
  [("team_id", Val.vstr "duke"), ("game_id", Val.vstr "g1"),
   ("result", Val.vstr "W"), ("fgm", Val.vint 20), ("fga", Val.vint 50),
   ("tpm", Val.vint 5), ("tpa", Val.vint 15), ("fta", Val.vint 20),
   ("tov", Val.vint 10), ("oreb", Val.vint 8), ("opp_dreb", Val.vint 25),
   ("opp_fga", Val.vint 55), ("opp_fta", Val.vint 18), ("opp_tov", Val.vint 12)]

/-- Game B of the spec's worked example. -/
def dictGameB : Dict :=
  [("team_id", Val.vstr "duke"), ("game_id", Val.vstr "g2"),
   ("result", Val.vstr "L"), ("fgm", Val.vint 25), ("fga", Val.vint 55),
   ("tpm", Val.vint 8), ("tpa", Val.vint 20), ("fta", Val.vint 15),
   ("tov", Val.vint 8), ("oreb", Val.vint 10), ("opp_dreb", Val.vint 20),
   ("opp_fga", Val.vint 50), ("opp_fta", Val.vint 20), ("opp_tov", Val.vint 14)]

/-- The two stored games of the worked example. -/
def gameA : TeamGame := toTeamGameRec 2024 dictGameA

/-- The second stored game of the worked example. -/
def gameB : TeamGame := toTeamGameRec 2024 dictGameB

/-- A store holding the example team-season row and its two games. -/
def dbC3 : DB :=
  { emptyDB with team_seasons := [tsFresh], team_games := [gameA, gameB] }

/-- Numeric reading with default 0, used only to state formulas over rows
whose statistics are known to be present. -/
def qv (v : Val) : ℚ := (valQ v).getD 0

/-- The stored games feeding one team-season row's aggregate: the year's
team_games restricted to the row's team_id (the GROUP BY group joined onto
the row). -/
def teamYearGames (y : Int) (db : DB) (ts : TeamSeason) : List TeamGame :=
  (db.team_games.filter (fun g => g.year == y)).filter
    (fun g => g.team_id == ts.team_id)

/-- A team-season row after the aggregation UPDATE for year `y` ran. -/
def aggregatedRow (y : Int) (db : DB) (ts : TeamSeason) : TeamSeason :=
  aggRow y (db.team_games.filter (fun g => g.year == y)) ts

/-- A player-season upsert input row. -/
def dictPS : Dict :=
  [("player_id", Val.vstr "7"), ("name", Val.vstr "A Player"),
   ("pts", Val.vint 10)]

/-- A team-season upsert input row. -/
def dictTS : Dict := [("team_id", Val.vstr "duke"), ("name", Val.vstr "Duke")]

/-- A player-game upsert input row. -/
def dictPG : Dict :=
  [("player_id", Val.vstr "101"), ("date", Val.vstr "2024-01-15"),
   ("opponent", Val.vstr "unc"), ("pts", Val.vint 12)]

/-- A store whose team-season row carries an aggregated record, used to
show the season upsert does not overwrite derived columns. -/
def dbC5x : DB :=
  { emptyDB with team_seasons := [{ tsFresh with record := Val.vstr "1-1" }] }

/-- A percentile-engine row carrying one tracked stat. -/
def rowP : StatRow := [("pts", some 7)]

/-- A population in which every member carries the identical value. -/
def popP : List StatRow := [rowP, rowP, rowP]

/-!
Helper lemmas: decimal rendering and parsing round-trip, used by the
season-label claims.
-/

theorem isPyWS_eq_false_of_isDigit {c : Char} (h : c.isDigit) :
    isPyWS c = false := by
  simp only [isPyWS, Bool.or_eq_false_iff, beq_eq_false_iff_ne]
  refine ⟨⟨⟨⟨⟨?_, ?_⟩, ?_⟩, ?_⟩, ?_⟩, ?_⟩ <;>
    (rintro rfl; exact absurd h (by decide))

theorem ne_underscore_of_isDigit {c : Char} (h : c.isDigit) : c ≠ '_' := by
  rintro rfl; exact absurd h (by decide)

theorem ne_dash_of_isDigit {c : Char} (h : c.isDigit) : c ≠ '-' := by
  rintro rfl; exact absurd h (by decide)

theorem toNat_digitChar {d : Nat} (h : d < 10) : (digitChar d).toNat - 48 = d := by
  interval_cases d <;> decide

theorem isDigit_digitChar {d : Nat} (h : d < 10) : (digitChar d).isDigit = true := by
  interval_cases d <;> decide

theorem natCharsCore_acc (fuel : Nat) : ∀ (n : Nat) (acc : List Char),
    natCharsCore fuel n acc = natCharsCore fuel n [] ++ acc := by
  induction fuel with
  | zero => intro n acc; simp [natCharsCore]
  | succ fuel ih =>
    intro n acc
    by_cases h : n < 10
    · simp [natCharsCore, h]
    · simp only [natCharsCore, if_neg h]
      rw [ih (n / 10) (digitChar (n % 10) :: acc),
        ih (n / 10) [digitChar (n % 10)], List.append_assoc]
      rfl

theorem natCharsCore_fuelIrrel : ∀ (m f1 f2 : Nat), m < f1 → m < f2 →
    natCharsCore f1 m [] = natCharsCore f2 m [] := by
  intro m
  induction m using Nat.strong_induction_on with
  | _ m ih =>
    intro f1 f2 h1 h2
    match f1, f2 with
    | g1 + 1, g2 + 1 =>
      by_cases h : m < 10
      · simp [natCharsCore, h]
      · have hd : m / 10 < m := Nat.div_lt_self (by omega) (by omega)
        simp only [natCharsCore, if_neg h]
        rw [natCharsCore_acc g1, natCharsCore_acc g2,
          ih (m / 10) hd g1 g2 (by omega) (by omega)]

theorem natChars_split {n : Nat} (h : 10 ≤ n) :
    natChars n = natChars (n / 10) ++ [digitChar (n % 10)] := by
  have hd : n / 10 < n := Nat.div_lt_self (by omega) (by omega)
  show natCharsCore (n + 1) n [] = _
  simp only [natCharsCore, if_neg (by omega : ¬ n < 10)]
  rw [natCharsCore_acc n, natCharsCore_fuelIrrel (n / 10) n (n / 10 + 1)
    (by omega) (by omega)]
  rfl

theorem natChars_lt10 {n : Nat} (h : n < 10) : natChars n = [digitChar n] := by
  show natCharsCore (n + 1) n [] = _
  simp [natCharsCore, h]

theorem natChars_ne_nil (n : Nat) : natChars n ≠ [] := by
  by_cases h : n < 10
  · rw [natChars_lt10 h]; simp
  · rw [natChars_split (by omega)]; simp

theorem natChars_isDigit (n : Nat) : ∀ c ∈ natChars n, c.isDigit := by
  induction n using Nat.strong_induction_on with
  | _ n ih =>
    by_cases h : n < 10
    · rw [natChars_lt10 h]
      intro c hc
      rw [List.mem_singleton] at hc
      exact hc ▸ isDigit_digitChar h
    · rw [natChars_split (by omega)]
      intro c hc
      rcases List.mem_append.mp hc with h1 | h1
      · exact ih (n / 10) (Nat.div_lt_self (by omega) (by omega)) c h1
      · rw [List.mem_singleton] at h1
        exact h1 ▸ isDigit_digitChar (Nat.mod_lt n (by omega))

theorem digitsVal_append (l : List Char) (c : Char) :
    digitsVal (l ++ [c]) = 10 * digitsVal l + (c.toNat - 48) := by
  simp [digitsVal, List.foldl_append]

theorem digitsVal_natChars (n : Nat) : digitsVal (natChars n) = n := by
  induction n using Nat.strong_induction_on with
  | _ n ih =>
    by_cases h : n < 10
    · rw [natChars_lt10 h]
      show 10 * 0 + ((digitChar n).toNat - 48) = n
      rw [toNat_digitChar h]
      omega
    · rw [natChars_split (by omega), digitsVal_append,
        ih (n / 10) (Nat.div_lt_self (by omega) (by omega)),
        toNat_digitChar (Nat.mod_lt n (by omega))]
      omega

theorem dropWhile_of_none {p : Char → Bool} :
    ∀ {l : List Char}, (∀ c ∈ l, p c = false) → l.dropWhile p = l := by
  intro l h
  cases l with
  | nil => rfl
  | cons c rest =>
    rw [List.dropWhile_cons, if_neg]
    simp [h c (by simp)]

theorem stripWS_of_digits {l : List Char} (h : ∀ c ∈ l, c.isDigit) :
    stripWS l = l := by
  unfold stripWS
  rw [dropWhile_of_none (fun c hc => isPyWS_eq_false_of_isDigit (h c hc)),
    dropWhile_of_none (fun c hc =>
      isPyWS_eq_false_of_isDigit (h c (List.mem_reverse.mp hc))),
    List.reverse_reverse]

theorem numTail_of_digits : ∀ {l : List Char}, (∀ c ∈ l, c.isDigit) →
    numTail l = true := by
  intro l
  induction l with
  | nil => intro _; rfl
  | cons c rest ih =>
    intro h
    have hc : c.isDigit := h c (by simp)
    have hcu : (c == '_') = false := by
      simp only [beq_eq_false_iff_ne]; exact ne_underscore_of_isDigit hc
    cases rest with
    | nil =>
      show (!(c == '_') && c.isDigit) = true
      rw [hcu, hc]; rfl
    | cons c2 rest2 =>
      show (if c == '_' then c2.isDigit && numTail rest2
        else c.isDigit && numTail (c2 :: rest2)) = true
      rw [if_neg (by simp [hcu]), hc,
        ih (fun x hx => h x (List.mem_cons_of_mem c hx))]
      rfl

theorem okDigits_of_digits {l : List Char} (hne : l ≠ [])
    (h : ∀ c ∈ l, c.isDigit) : okDigits l = true := by
  cases l with
  | nil => exact absurd rfl hne
  | cons c rest =>
    simp only [okDigits, Bool.and_eq_true]
    exact ⟨h c (by simp),
      numTail_of_digits (fun x hx => h x (List.mem_cons_of_mem c hx))⟩

theorem filter_underscore_of_digits {l : List Char}
    (h : ∀ c ∈ l, c.isDigit) : l.filter (fun c => !(c == '_')) = l := by
  apply List.filter_eq_self.mpr
  intro c hc
  simp only [Bool.not_eq_true', beq_eq_false_iff_ne]
  exact ne_underscore_of_isDigit (h c hc)

theorem pyParseInt_natChars (n : Nat) : pyParseInt (natChars n) = some (n : Int) := by
  have hdig := natChars_isDigit n
  have hstrip : stripWS (natChars n) = natChars n := stripWS_of_digits hdig
  obtain ⟨c, rest, hcons⟩ : ∃ c rest, natChars n = c :: rest := by
    cases hl : natChars n with
    | nil => exact absurd hl (natChars_ne_nil n)
    | cons c rest => exact ⟨c, rest, rfl⟩
  have hok : okDigits (natChars n) = true :=
    okDigits_of_digits (natChars_ne_nil n) hdig
  have hval : unsignedVal (natChars n) = n := by
    unfold unsignedVal
    rw [filter_underscore_of_digits hdig, digitsVal_natChars]
  have hcd : c.isDigit := hdig c (hcons ▸ List.mem_cons_self c rest)
  unfold pyParseInt
  rw [hstrip, hcons]
  have hcp : c ≠ '+' := by rintro rfl; exact absurd hcd (by decide)
  have hcm : c ≠ '-' := by rintro rfl; exact absurd hcd (by decide)
  split
  · next heq => rw [List.cons.injEq] at heq; exact absurd heq.1 hcp
  · next heq => rw [List.cons.injEq] at heq; exact absurd heq.1 hcm
  · rw [if_pos (hcons ▸ hok), ← hcons, hval]

theorem takeWhile_all_append {p : Char → Bool} (x : Char) (hx : p x = false) :
    ∀ (a b : List Char), (∀ c ∈ a, p c = true) →
    (a ++ x :: b).takeWhile p = a := by
  intro a
  induction a with
  | nil =>
    intro b _
    show (x :: b).takeWhile p = []
    rw [List.takeWhile_cons, if_neg (by simp [hx])]
  | cons c rest ih =>
    intro b h
    show (c :: (rest ++ x :: b)).takeWhile p = c :: rest
    rw [List.takeWhile_cons, if_pos (h c (by simp)),
      ih b (fun y hy => h y (List.mem_cons_of_mem c hy))]

theorem takeWhile_all {p : Char → Bool} :
    ∀ (l : List Char), (∀ c ∈ l, p c = true) → l.takeWhile p = l := by
  intro l
  induction l with
  | nil => intro _; rfl
  | cons c rest ih =>
    intro h
    rw [List.takeWhile_cons, if_pos (h c (by simp)),
      ih (fun y hy => h y (List.mem_cons_of_mem c hy))]

theorem splitHead_year_to_season {y : Int} (hy : 1000 ≤ y) :
    splitHead (year_to_season y) = natChars (y - 1).toNat := by
  have h1 : intChars (y - 1) = natChars (y - 1).toNat := by
    unfold intChars
    rw [if_neg (by omega)]
  unfold year_to_season splitHead
  rw [h1]
  exact takeWhile_all_append '-' (by decide) _ _
    (fun c hc => by
      simp only [Bool.not_eq_true', beq_eq_false_iff_ne, ne_eq]
      exact ne_dash_of_isDigit (natChars_isDigit _ c hc))

/-- C6 (amended): season_to_year and year_to_season are mutual inverses on
years: for every year y ≥ 1000, `season_to_year (year_to_season y) = y`,
and consequently every label in the image of year_to_season round-trips
through `year_to_season ∘ season_to_year`.  (The claim's broader statement
— that every "YYYY-YY" string with a parseable leading segment round-trips
— fails, e.g. on "2023-99"; see the counterexample.) -/
theorem season_label_roundtrip (y : Int) (hy : 1000 ≤ y) :
    season_to_year (year_to_season y) = some y ∧
    (season_to_year (year_to_season y)).map year_to_season
      = some (year_to_season y) := by
  have h1 : season_to_year (year_to_season y) = some y := by
    unfold season_to_year
    rw [splitHead_year_to_season hy, pyParseInt_natChars]
    simp only [Option.map_some']
    congr 1
    omega
  exact ⟨h1, by rw [h1]; rfl⟩

/-- C6 witness: the round-trip theorem instantiated at year 2024. -/
theorem season_label_roundtrip_witness :
    (1000 : Int) ≤ 2024 ∧
    (season_to_year (year_to_season 2024) = some 2024 ∧
     (season_to_year (year_to_season 2024)).map year_to_season
       = some (year_to_season 2024)) :=
  ⟨by norm_num, season_label_roundtrip 2024 (by norm_num)⟩

/-- C6 counterexample: "2023-99" satisfies the claim's own validity notion
(four digits, dash, two digits, parseable leading segment) but converts to
year 2024 and back to "2023-24", not to itself. -/
theorem season_label_roundtrip_counterexample :
    validLabelShape ("2023-99".data) = true ∧
    (season_to_year ("2023-99".data)).map year_to_season
      = some ("2023-24".data) ∧
    ("2023-24".data : List Char) ≠ "2023-99".data := by
  refine ⟨by decide, by decide, by decide⟩

/-- C7 (amended): season_to_year fails exactly when the text before the
first separator (the whole label when no separator occurs) is not a
parseable integer.  A label without a separator whose text parses as an
integer does not fail — `split` returns the whole string, so separator
absence alone never raises (contrary to the claim; see the
counterexample). -/
theorem season_to_year_failure (s : List Char) :
    (season_to_year s = none ↔ pyParseInt (splitHead s) = none)
    ∧ (hasDash s = false → splitHead s = s)
    ∧ (∀ n : Int, pyParseInt (splitHead s) = some n →
        season_to_year s = some (n + 1)) := by
  refine ⟨?_, ?_, ?_⟩
  · unfold season_to_year
    exact Option.map_eq_none'
  · intro h
    unfold splitHead
    apply takeWhile_all
    intro c hc
    have := (List.any_eq_false.mp h) c hc
    simp [this]
  · intro n h
    unfold season_to_year
    rw [h]
    rfl

/-- C7 counterexample: "2024" has no separator — malformed according to the
claim — yet season_to_year succeeds on it, returning 2025. -/
theorem season_to_year_failure_counterexample :
    hasDash ("2024".data) = false ∧
    season_to_year ("2024".data) = some 2025 := by
  refine ⟨by decide, by decide⟩

/-- C8: a raised exception on a per-game fetch is caught inside
fetch_and_store_games / fetch_and_store_team_games, which report zero rows
((0) resp. (0, 0)) and leave the store — in particular the year's already
ingested player-season and team-season rows — untouched, so the year's
refresh proceeds. -/
theorem per_game_fetch_failure_recovery (y : Int) (e : String) (db : DB) :
    fetch_and_store_games y (Except.error e) db = (0, db)
    ∧ fetch_and_store_team_games y (Except.error e) db = ((0, 0), db)
    ∧ (fetch_and_store_games y (Except.error e) db).2.player_seasons
        = db.player_seasons
    ∧ (fetch_and_store_games y (Except.error e) db).2.team_seasons
        = db.team_seasons
    ∧ (fetch_and_store_team_games y (Except.error e) db).2.player_seasons
        = db.player_seasons
    ∧ (fetch_and_store_team_games y (Except.error e) db).2.team_seasons
        = db.team_seasons :=
  ⟨rfl, rfl, rfl, rfl, rfl, rfl⟩

/-- C2 (amended): a team-season row of the target year with zero stored
team_games rows for that year is left completely unchanged by
update_team_season_aggregates — the GROUP BY subquery has no group for its
team_id, so the join updates nothing: record keeps its prior value (NULL
for a row never aggregated, not "0-0") and every four-factor column keeps
its prior value (NULL when never aggregated). -/
theorem zero_games_aggregate (y : Int) (db : DB) (ts : TeamSeason)
    (hmem : ts ∈ db.team_seasons)
    (hng : ∀ g ∈ db.team_games, g.year = y → g.team_id ≠ ts.team_id) :
    aggRow y (db.team_games.filter (fun g => g.year == y)) ts = ts
    ∧ ts ∈ (update_team_season_aggregates y db).2.team_seasons := by
  have hany : (db.team_games.filter (fun g => g.year == y)).any
      (fun g => g.team_id == ts.team_id) = false := by
    apply List.any_eq_false.mpr
    intro g hg
    have hmem2 := List.mem_filter.mp hg
    have hyr : g.year = y := by
      have := hmem2.2
      simpa using this
    simpa using hng g hmem2.1 hyr
  have h1 : aggRow y (db.team_games.filter (fun g => g.year == y)) ts = ts := by
    unfold aggRow
    rw [if_neg]
    simp [hany]
  refine ⟨h1, ?_⟩
  show ts ∈ (db.team_seasons.map
    (aggRow y (db.team_games.filter (fun g => g.year == y))))
  have := List.mem_map_of_mem
    (aggRow y (db.team_games.filter (fun g => g.year == y))) hmem
  rw [h1] at this
  exact this

/-- C2 witness: the theorem applied to a store with one fresh team-season
row and no games. -/
theorem zero_games_aggregate_witness :
    tsFresh ∈ dbC2.team_seasons
    ∧ (aggRow 2024 (dbC2.team_games.filter (fun g => g.year == 2024)) tsFresh
        = tsFresh
       ∧ tsFresh ∈ (update_team_season_aggregates 2024 dbC2).2.team_seasons) :=
  ⟨by decide, zero_games_aggregate 2024 dbC2 tsFresh (by decide) (by decide)⟩

/-- C2 counterexample: with zero stored games, the record column stays NULL
after running the aggregation — it is not set to "0-0" as the claim
demands. -/
theorem zero_games_aggregate_counterexample :
    ((update_team_season_aggregates 2024 dbC2).2.team_seasons.map
      (fun ts => ts.record)) = [Val.vnone]
    ∧ Val.vnone ≠ Val.vstr "0-0" :=
  ⟨by decide, by decide⟩

theorem filterMap_id_all_some {β : Type} (l : List β) (f : β → Option ℚ)
    (g : β → ℚ) (h : ∀ x ∈ l, f x = some (g x)) :
    (l.map f).filterMap id = l.map g := by
  induction l with
  | nil => rfl
  | cons a rest ih =>
    have ha := h a (List.mem_cons_self a rest)
    have hr := ih (fun x hx => h x (List.mem_cons_of_mem a hx))
    simp [ha, hr]

theorem sqlSum_all_some {β : Type} (l : List β) (f : β → Option ℚ) (g : β → ℚ)
    (hne : l ≠ []) (h : ∀ x ∈ l, f x = some (g x)) :
    sqlSum (l.map f) = some ((l.map g).sum) := by
  unfold sqlSum
  rw [filterMap_id_all_some l f g h]
  have hfalse : (l.map g).isEmpty = false := by
    cases l with
    | nil => exact absurd rfl hne
    | cons a rest => rfl
  rw [hfalse]
  rfl

theorem valQ_some_qv {v : Val} (h : (valQ v).isSome) : valQ v = some (qv v) := by
  obtain ⟨a, ha⟩ := Option.isSome_iff_exists.mp h
  rw [ha]
  simp [qv, ha]

theorem ratio_eval {β : Type} (G : List β) (nf df : β → Option ℚ)
    (nv dv : β → ℚ) (hne : G ≠ [])
    (hn : ∀ g ∈ G, nf g = some (nv g)) (hd : ∀ g ∈ G, df g = some (dv g))
    (hnz : (G.map nv).sum ≠ 0) (hdz : (G.map dv).sum ≠ 0) :
    storeRatio (ratioOf (sqlSum (G.map nf)) (sqlSum (G.map df)))
      = Val.vfloat (round1 (100 * ((G.map nv).sum / (G.map dv).sum))) := by
  rw [sqlSum_all_some G nf nv hne hn, sqlSum_all_some G df dv hne hd]
  unfold ratioOf nullifZero sqlDiv storeRatio
  simp only [Option.some_bind, if_neg hnz, if_neg hdz, Option.map_some']
  rw [mul_comm]

/-- C3: update_team_season_aggregates computes the record as
"{wins}-{losses}" over the team's stored games of the year, and each
four-factor ratio as a summed-numerator over summed-denominator across all
those games, stored ×100 rounded to one decimal — here stated for eFG%,
opponent eFG%, TOV%, opponent TOV%, ORB%, DRB%, FTR and opponent FTR,
whenever the involved box-score columns are present and the summed
numerator and denominator are nonzero (a zero sum is turned into NULL by
the NULLIF guards).  The witness instantiates the spec's worked example:
record "1-1" and eFG% 49.0. -/
theorem four_factor_formulas (y : Int) (db : DB) (ts : TeamSeason)
    (hmem : ts ∈ db.team_seasons) (hy : ts.year = y)
    (hnn : ts.team_id ≠ Val.vnone)
    (hG : teamYearGames y db ts ≠ []) :
    aggregatedRow y db ts ∈ (update_team_season_aggregates y db).2.team_seasons
    ∧ (aggregatedRow y db ts).record
        = Val.vstr (toString ((teamYearGames y db ts).countP
              (fun g => g.result == Val.vstr "W")) ++ "-"
            ++ toString ((teamYearGames y db ts).countP
              (fun g => g.result == Val.vstr "L")))
    ∧ ((∀ g ∈ teamYearGames y db ts,
          (valQ g.fgm).isSome ∧ (valQ g.tpm).isSome ∧ (valQ g.fga).isSome) →
        ((teamYearGames y db ts).map
          (fun g => qv g.fgm + (1/2) * qv g.tpm)).sum ≠ 0 →
        ((teamYearGames y db ts).map (fun g => qv g.fga)).sum ≠ 0 →
        (aggregatedRow y db ts).efg_pct = Val.vfloat (round1 (100 *
          (((teamYearGames y db ts).map
              (fun g => qv g.fgm + (1/2) * qv g.tpm)).sum
            / ((teamYearGames y db ts).map (fun g => qv g.fga)).sum))))
    ∧ ((∀ g ∈ teamYearGames y db ts,
          (valQ g.opp_fgm).isSome ∧ (valQ g.opp_tpm).isSome
            ∧ (valQ g.opp_fga).isSome) →
        ((teamYearGames y db ts).map
          (fun g => qv g.opp_fgm + (1/2) * qv g.opp_tpm)).sum ≠ 0 →
        ((teamYearGames y db ts).map (fun g => qv g.opp_fga)).sum ≠ 0 →
        (aggregatedRow y db ts).opp_efg_pct = Val.vfloat (round1 (100 *
          (((teamYearGames y db ts).map
              (fun g => qv g.opp_fgm + (1/2) * qv g.opp_tpm)).sum
            / ((teamYearGames y db ts).map (fun g => qv g.opp_fga)).sum))))
    ∧ ((∀ g ∈ teamYearGames y db ts,
          (valQ g.tov).isSome ∧ (valQ g.fga).isSome ∧ (valQ g.fta).isSome) →
        ((teamYearGames y db ts).map (fun g => qv g.tov)).sum ≠ 0 →
        ((teamYearGames y db ts).map
          (fun g => qv g.fga + (11/25) * qv g.fta + qv g.tov)).sum ≠ 0 →
        (aggregatedRow y db ts).tov_pct = Val.vfloat (round1 (100 *
          (((teamYearGames y db ts).map (fun g => qv g.tov)).sum
            / ((teamYearGames y db ts).map
                (fun g => qv g.fga + (11/25) * qv g.fta + qv g.tov)).sum))))
    ∧ ((∀ g ∈ teamYearGames y db ts,
          (valQ g.opp_tov).isSome ∧ (valQ g.opp_fga).isSome
            ∧ (valQ g.opp_fta).isSome) →
        ((teamYearGames y db ts).map (fun g => qv g.opp_tov)).sum ≠ 0 →
        ((teamYearGames y db ts).map
          (fun g => qv g.opp_fga + (11/25) * qv g.opp_fta + qv g.opp_tov)).sum ≠ 0 →
        (aggregatedRow y db ts).opp_tov_pct = Val.vfloat (round1 (100 *
          (((teamYearGames y db ts).map (fun g => qv g.opp_tov)).sum
            / ((teamYearGames y db ts).map
                (fun g => qv g.opp_fga + (11/25) * qv g.opp_fta
                  + qv g.opp_tov)).sum))))
    ∧ ((∀ g ∈ teamYearGames y db ts,
          (valQ g.oreb).isSome ∧ (valQ g.opp_dreb).isSome) →
        ((teamYearGames y db ts).map (fun g => qv g.oreb)).sum ≠ 0 →
        ((teamYearGames y db ts).map
          (fun g => qv g.oreb + qv g.opp_dreb)).sum ≠ 0 →
        (aggregatedRow y db ts).orb_pct = Val.vfloat (round1 (100 *
          (((teamYearGames y db ts).map (fun g => qv g.oreb)).sum
            / ((teamYearGames y db ts).map
                (fun g => qv g.oreb + qv g.opp_dreb)).sum))))
    ∧ ((∀ g ∈ teamYearGames y db ts,
          (valQ g.dreb).isSome ∧ (valQ g.opp_oreb).isSome) →
        ((teamYearGames y db ts).map (fun g => qv g.dreb)).sum ≠ 0 →
        ((teamYearGames y db ts).map
          (fun g => qv g.dreb + qv g.opp_oreb)).sum ≠ 0 →
        (aggregatedRow y db ts).drb_pct = Val.vfloat (round1 (100 *
          (((teamYearGames y db ts).map (fun g => qv g.dreb)).sum
            / ((teamYearGames y db ts).map
                (fun g => qv g.dreb + qv g.opp_oreb)).sum))))
    ∧ ((∀ g ∈ teamYearGames y db ts,
          (valQ g.fta).isSome ∧ (valQ g.fga).isSome) →
        ((teamYearGames y db ts).map (fun g => qv g.fta)).sum ≠ 0 →
        ((teamYearGames y db ts).map (fun g => qv g.fga)).sum ≠ 0 →
        (aggregatedRow y db ts).ftr = Val.vfloat (round1 (100 *
          (((teamYearGames y db ts).map (fun g => qv g.fta)).sum
            / ((teamYearGames y db ts).map (fun g => qv g.fga)).sum))))
    ∧ ((∀ g ∈ teamYearGames y db ts,
          (valQ g.opp_fta).isSome ∧ (valQ g.opp_fga).isSome) →
        ((teamYearGames y db ts).map (fun g => qv g.opp_fta)).sum ≠ 0 →
        ((teamYearGames y db ts).map (fun g => qv g.opp_fga)).sum ≠ 0 →
        (aggregatedRow y db ts).opp_ftr = Val.vfloat (round1 (100 *
          (((teamYearGames y db ts).map (fun g => qv g.opp_fta)).sum
            / ((teamYearGames y db ts).map (fun g => qv g.opp_fga)).sum)))) := by
  have hb3 : (db.team_games.filter (fun g => g.year == y)).any
      (fun g => g.team_id == ts.team_id) = true := by
    obtain ⟨g, hg⟩ := List.exists_mem_of_ne_nil _ hG
    have hmem2 := List.mem_filter.mp hg
    exact List.any_eq_true.mpr ⟨g, hmem2.1, hmem2.2⟩
  have h2 : aggregatedRow y db ts = applyAgg (teamYearGames y db ts) ts := by
    unfold aggregatedRow aggRow
    rw [if_pos]
    · rfl
    · simp only [Bool.and_eq_true, beq_iff_eq, Bool.not_eq_true',
        beq_eq_false_iff_ne]
      exact ⟨⟨hy, hnn⟩, hb3⟩
  refine ⟨?_, ?_, ?_, ?_, ?_, ?_, ?_, ?_, ?_, ?_⟩
  · show aggregatedRow y db ts ∈ (db.team_seasons.map
      (aggRow y (db.team_games.filter (fun g => g.year == y))))
    exact List.mem_map_of_mem _ hmem
  · rw [h2]; simp only [applyAgg]
  · intro hp hnz hdz
    rw [h2]; simp only [applyAgg]
    exact ratio_eval _ _ _ _ _ hG
      (fun g hg => by
        have h1 := valQ_some_qv (hp g hg).1
        have hta := valQ_some_qv (hp g hg).2.1
        simp [efgNumExpr, sqlAdd, h1, hta])
      (fun g hg => valQ_some_qv (hp g hg).2.2) hnz hdz
  · intro hp hnz hdz
    rw [h2]; simp only [applyAgg]
    exact ratio_eval _ _ _ _ _ hG
      (fun g hg => by
        have h1 := valQ_some_qv (hp g hg).1
        have hta := valQ_some_qv (hp g hg).2.1
        simp [oppEfgNumExpr, sqlAdd, h1, hta])
      (fun g hg => valQ_some_qv (hp g hg).2.2) hnz hdz
  · intro hp hnz hdz
    rw [h2]; simp only [applyAgg]
    exact ratio_eval _ _ _ _ _ hG
      (fun g hg => valQ_some_qv (hp g hg).1)
      (fun g hg => by
        have h1 := valQ_some_qv (hp g hg).2.1
        have hta := valQ_some_qv (hp g hg).2.2
        have h3 := valQ_some_qv (hp g hg).1
        simp [tovDenExpr, sqlAdd, h1, hta, h3]) hnz hdz
  · intro hp hnz hdz
    rw [h2]; simp only [applyAgg]
    exact ratio_eval _ _ _ _ _ hG
      (fun g hg => valQ_some_qv (hp g hg).1)
      (fun g hg => by
        have h1 := valQ_some_qv (hp g hg).2.1
        have hta := valQ_some_qv (hp g hg).2.2
        have h3 := valQ_some_qv (hp g hg).1
        simp [oppTovDenExpr, sqlAdd, h1, hta, h3]) hnz hdz
  · intro hp hnz hdz
    rw [h2]; simp only [applyAgg]
    exact ratio_eval _ _ _ _ _ hG
      (fun g hg => valQ_some_qv (hp g hg).1)
      (fun g hg => by
        have h1 := valQ_some_qv (hp g hg).1
        have hta := valQ_some_qv (hp g hg).2
        simp [sqlAdd, h1, hta]) hnz hdz
  · intro hp hnz hdz
    rw [h2]; simp only [applyAgg]
    exact ratio_eval _ _ _ _ _ hG
      (fun g hg => valQ_some_qv (hp g hg).1)
      (fun g hg => by
        have h1 := valQ_some_qv (hp g hg).1
        have hta := valQ_some_qv (hp g hg).2
        simp [sqlAdd, h1, hta]) hnz hdz
  · intro hp hnz hdz
    rw [h2]; simp only [applyAgg]
    exact ratio_eval _ _ _ _ _ hG
      (fun g hg => valQ_some_qv (hp g hg).1)
      (fun g hg => valQ_some_qv (hp g hg).2) hnz hdz
  · intro hp hnz hdz
    rw [h2]; simp only [applyAgg]
    exact ratio_eval _ _ _ _ _ hG
      (fun g hg => valQ_some_qv (hp g hg).1)
      (fun g hg => valQ_some_qv (hp g hg).2) hnz hdz

/-- C3 witness: the spec's worked example — Game A (fgm 20, fga 50, tpm 5,
result W) and Game B (fgm 25, fga 55, tpm 8, result L) — yields record
"1-1" and eFG% 49.0. -/
theorem four_factor_formulas_witness :
    tsFresh ∈ dbC3.team_seasons
    ∧ tsFresh.year = 2024
    ∧ tsFresh.team_id ≠ Val.vnone
    ∧ teamYearGames 2024 dbC3 tsFresh ≠ []
    ∧ (aggregatedRow 2024 dbC3 tsFresh).record = Val.vstr "1-1"
    ∧ (aggregatedRow 2024 dbC3 tsFresh).efg_pct = Val.vfloat 49 := by
  have h := four_factor_formulas 2024 dbC3 tsFresh (by decide) (by decide)
    (by decide) (by decide)
  have hGl : teamYearGames 2024 dbC3 tsFresh = [gameA, gameB] := rfl
  have hAfgm : gameA.fgm = Val.vint 20 := rfl
  have hAtpm : gameA.tpm = Val.vint 5 := rfl
  have hAfga : gameA.fga = Val.vint 50 := rfl
  have hBfgm : gameB.fgm = Val.vint 25 := rfl
  have hBtpm : gameB.tpm = Val.vint 8 := rfl
  have hBfga : gameB.fga = Val.vint 55 := rfl
  have hnum : ((teamYearGames 2024 dbC3 tsFresh).map
      (fun g => qv g.fgm + (1/2) * qv g.tpm)).sum = 103/2 := by
    rw [hGl]
    simp only [List.map_cons, List.map_nil, List.sum_cons, List.sum_nil,
      hAfgm, hAtpm, hBfgm, hBtpm]
    norm_num [qv, valQ]
  have hden : ((teamYearGames 2024 dbC3 tsFresh).map
      (fun g => qv g.fga)).sum = 105 := by
    rw [hGl]
    simp only [List.map_cons, List.map_nil, List.sum_cons, List.sum_nil,
      hAfga, hBfga]
    norm_num [qv, valQ]
  have he := h.2.2.1 (by decide) (by rw [hnum]; norm_num)
    (by rw [hden]; norm_num)
  rw [hnum, hden] at he
  refine ⟨by decide, by decide, by decide, by decide, ?_, ?_⟩
  · rw [h.2.1, hGl]
    decide
  · rw [he]
    norm_num [round1]

theorem pythonRound_nonneg {q : ℚ} (h : 0 ≤ q) : 0 ≤ pythonRound q := by
  have hf : 0 ≤ ⌊q⌋ := Int.floor_nonneg.mpr h
  unfold pythonRound
  split_ifs <;> omega

theorem pythonRound_intCast (c : ℤ) : pythonRound (c : ℚ) = c := by
  unfold pythonRound
  rw [Int.floor_intCast]
  rw [if_pos]
  norm_num

theorem pythonRound_le {q : ℚ} {c : ℤ} (h : q ≤ (c : ℚ)) : pythonRound q ≤ c := by
  have hf : ⌊q⌋ ≤ c := by
    have := Int.floor_le_floor h
    rwa [Int.floor_intCast] at this
  unfold pythonRound
  split_ifs with h1 h2 h3
  · exact hf
  · have hlt : (⌊q⌋ : ℚ) + 1/2 < (c : ℚ) := by
      have hq : (⌊q⌋ : ℚ) + 1/2 < q := by linarith
      linarith
    have : ⌊q⌋ < c := by
      by_contra hcon
      push_neg at hcon
      have : (c : ℚ) ≤ (⌊q⌋ : ℚ) := by exact_mod_cast hcon
      linarith
    omega
  · have hle : (⌊q⌋ : ℚ) + 1/2 ≤ (c : ℚ) := by
      have hq : q - (⌊q⌋ : ℚ) = 1/2 := le_antisymm (not_lt.mp h2) (not_lt.mp h1)
      linarith
    have : ⌊q⌋ < c := by
      by_contra hcon
      push_neg at hcon
      have : (c : ℚ) ≤ (⌊q⌋ : ℚ) := by exact_mod_cast hcon
      linarith
    omega
  · have hle : (⌊q⌋ : ℚ) + 1/2 ≤ (c : ℚ) := by
      have hq : q - (⌊q⌋ : ℚ) = 1/2 := le_antisymm (not_lt.mp h2) (not_lt.mp h1)
      linarith
    have : ⌊q⌋ < c := by
      by_contra hcon
      push_neg at hcon
      have : (c : ℚ) ≤ (⌊q⌋ : ℚ) := by exact_mod_cast hcon
      linarith
    omega

theorem filterMap_const_some {v : ℚ} (f : StatRow → Option ℚ) :
    ∀ (pop : List StatRow), (∀ p ∈ pop, f p = some v) →
    pop.filterMap f = List.replicate pop.length v := by
  intro pop
  induction pop with
  | nil => intro _; rfl
  | cons p rest ih =>
    intro h
    have hp := h p (List.mem_cons_self p rest)
    have hr := ih (fun x hx => h x (List.mem_cons_of_mem p hx))
    simp [hp, hr, List.replicate_succ]

theorem countP_replicate_true {v : ℚ} {n : Nat} {p : ℚ → Bool}
    (hp : p v = true) : (List.replicate n v).countP p = n := by
  induction n with
  | zero => rfl
  | succ n ih => simp [List.replicate_succ, List.countP_cons, hp, ih]

/-- C4: every percentile produced by the engine of _compute_percentiles /
_compute_team_percentiles is absent or an integer in [0, 100]; it is absent
exactly on an absent row value or an empty population value list; a value
repeated identically across the whole population (the row included) ranks
100 in either direction; and otherwise the rank is
round(100 × |values no better than the row value| / |values|), with "no
better" being ≤ for higher-is-better and ≥ for lower-is-better.  The final
two conjuncts tie the dict entries of the two source functions to this
per-stat computation. -/
theorem percentile_engine_props (hib : Bool) (player : StatRow)
    (pop : List StatRow) (stat : String) :
    (statGet player stat = none →
      computeStatPercentile hib player pop stat = none)
    ∧ (pop.filterMap (fun p => statGet p stat) = [] →
      computeStatPercentile hib player pop stat = none)
    ∧ (∀ i : Int, computeStatPercentile hib player pop stat = some i →
        0 ≤ i ∧ i ≤ 100)
    ∧ (∀ v : ℚ, player ∈ pop → (∀ p ∈ pop, statGet p stat = some v) →
        computeStatPercentile hib player pop stat = some 100)
    ∧ (∀ v : ℚ, statGet player stat = some v →
        pop.filterMap (fun p => statGet p stat) ≠ [] →
        computeStatPercentile hib player pop stat = some (pythonRound
          ((100 * (if hib then
              (pop.filterMap (fun p => statGet p stat)).countP (fun w => w ≤ v)
            else
              (pop.filterMap (fun p => statGet p stat)).countP (fun w => v ≤ w)) : ℚ)
           / ((pop.filterMap (fun p => statGet p stat)).length : ℚ))))
    ∧ (∀ r, (stat, r) ∈ compute_percentiles player pop →
        r = computeStatPercentile (HIGHER_IS_BETTER.contains stat) player pop stat)
    ∧ (∀ r, (stat, r) ∈ compute_team_percentiles player pop →
        r = computeStatPercentile (TEAM_HIGHER.contains stat) player pop stat) := by
  refine ⟨?_, ?_, ?_, ?_, ?_, ?_, ?_⟩
  · intro h
    simp [computeStatPercentile, h]
  · intro h
    cases hv : statGet player stat with
    | none => simp [computeStatPercentile, hv]
    | some v => simp [computeStatPercentile, hv, h]
  · intro i hi
    cases hv : statGet player stat with
    | none => simp [computeStatPercentile, hv] at hi
    | some v =>
      simp only [computeStatPercentile, hv] at hi
      by_cases hemp : (pop.filterMap (fun p => statGet p stat)).isEmpty
      · rw [if_pos hemp] at hi; exact absurd hi (by simp)
      · rw [if_neg hemp] at hi
        have hlen : 0 < (pop.filterMap (fun p => statGet p stat)).length := by
          cases hl : pop.filterMap (fun p => statGet p stat) with
          | nil => rw [hl] at hemp; exact absurd rfl hemp
          | cons a rest => simp [hl]
        set values := pop.filterMap (fun p => statGet p stat) with hval
        set cnt := if hib then values.countP (fun w => decide (w ≤ v))
          else values.countP (fun w => decide (v ≤ w)) with hcnt
        have hcle : cnt ≤ values.length := by
          rw [hcnt]
          split_ifs <;> exact List.countP_le_length _
        have hq0 : (0 : ℚ) ≤ (100 * cnt : ℚ) / (values.length : ℚ) := by
          apply div_nonneg <;> positivity
        have hq100 : ((100 * cnt : ℚ) / (values.length : ℚ)) ≤ ((100 : ℤ) : ℚ) := by
          rw [div_le_iff₀ (by exact_mod_cast hlen)]
          push_cast
          have hc2 : ((cnt : ℚ)) ≤ ((values.length : ℚ)) := by
            exact_mod_cast hcle
          nlinarith [hc2]
        have := Option.some.inj hi
        subst this
        exact ⟨pythonRound_nonneg hq0, pythonRound_le hq100⟩
  · intro v hmem hall
    have hv : statGet player stat = some v := hall player hmem
    have hrep : pop.filterMap (fun p => statGet p stat)
        = List.replicate pop.length v := filterMap_const_some _ pop hall
    have hlen : 0 < pop.length := List.length_pos_of_mem hmem
    have hemp : (List.replicate pop.length v).isEmpty = false := by
      cases hn : pop.length with
      | zero => omega
      | succ n => rfl
    simp only [computeStatPercentile, hv, hrep, hemp, Bool.false_eq_true,
      if_false]
    have hcntT : (List.replicate pop.length v).countP (fun w => decide (w ≤ v))
        = pop.length := countP_replicate_true (by simp)
    have hcntF : (List.replicate pop.length v).countP (fun w => decide (v ≤ w))
        = pop.length := countP_replicate_true (by simp)
    have hlenne : ((pop.length : ℚ)) ≠ 0 := by
      have := Nat.pos_iff_ne_zero.mp hlen
      exact_mod_cast this
    have hq : ((100 * (pop.length : ℚ))
        / ((List.replicate pop.length v).length : ℚ)) = ((100 : ℤ) : ℚ) := by
      rw [List.length_replicate]
      field_simp
    cases hib with
    | true =>
      simp only [if_true, hcntT]
      rw [show ((100 : ℚ) * ((pop.length : Nat) : ℚ)) = 100 * (pop.length : ℚ)
        from rfl, hq, pythonRound_intCast]
    | false =>
      simp only [Bool.false_eq_true, if_false, hcntF]
      rw [show ((100 : ℚ) * ((pop.length : Nat) : ℚ)) = 100 * (pop.length : ℚ)
        from rfl, hq, pythonRound_intCast]
  · intro v hv hne
    have hemp : (pop.filterMap (fun p => statGet p stat)).isEmpty = false := by
      cases hl : pop.filterMap (fun p => statGet p stat) with
      | nil => exact absurd hl hne
      | cons a rest => rfl
    simp only [computeStatPercentile, hv, hemp, Bool.false_eq_true, if_false]
  · intro r hr
    obtain ⟨s2, hs2, heq⟩ := List.mem_map.mp hr
    have h1 : s2 = stat := congrArg Prod.fst heq
    have h2 : r = computeStatPercentile (HIGHER_IS_BETTER.contains s2)
        player pop s2 := (congrArg Prod.snd heq).symm
    rw [h2, h1]
  · intro r hr
    obtain ⟨s2, hs2, heq⟩ := List.mem_map.mp hr
    have h1 : s2 = stat := congrArg Prod.fst heq
    have h2 : r = computeStatPercentile (TEAM_HIGHER.contains s2)
        player pop s2 := (congrArg Prod.snd heq).symm
    rw [h2, h1]

/-- C4 witness: in a three-member population carrying the identical value,
the percentile is 100 in the higher-is-better and the lower-is-better
direction alike. -/
theorem percentile_engine_props_witness :
    rowP ∈ popP
    ∧ computeStatPercentile true rowP popP "pts" = some 100
    ∧ computeStatPercentile false rowP popP "pts" = some 100 := by
  have hall : ∀ p ∈ popP, statGet p "pts" = some 7 := by
    intro p hp
    simp only [popP, List.mem_cons, List.not_mem_nil, or_false] at hp
    rcases hp with h | h | h <;> (subst h; rfl)
  refine ⟨by simp [popP], ?_, ?_⟩
  · exact (percentile_engine_props true rowP popP "pts").2.2.2.1 7
      (by simp [popP]) hall
  · exact (percentile_engine_props false rowP popP "pts").2.2.2.1 7
      (by simp [popP]) hall

theorem isNonFinite_clean (v : Val) : (clean v).isNonFinite = false := by
  unfold clean
  cases hb : v.isNonFinite with
  | true => rfl
  | false => exact hb

theorem mem_dictSet {out : Dict} {k : String} {v : Val} {kv : String × Val}
    (h : kv ∈ dictSet out k v) : kv = (k, v) ∨ kv ∈ out := by
  unfold dictSet at h
  by_cases hc : dictContains out k
  · rw [if_pos hc] at h
    obtain ⟨kv2, hkv2, heq⟩ := List.mem_map.mp h
    by_cases hk : (kv2.1 == k) = true
    · rw [if_pos hk] at heq
      left; exact heq.symm
    · rw [if_neg hk] at heq
      right; rw [← heq]; exact hkv2
  · rw [if_neg hc] at h
    rcases List.mem_append.mp h with h1 | h1
    · right; exact h1
    · left; simpa using h1

theorem dictFind_of_contains {row : Dict} {k : String}
    (h : dictContains row k = true) : dictFind row k = some (pyGet row k) := by
  unfold dictContains at h
  obtain ⟨v, hv⟩ := Option.isSome_iff_exists.mp h
  rw [hv]
  unfold pyGet
  rw [hv]
  rfl

theorem remap_phase1 (row : Dict) :
    ∀ (fm : List (String × String)) (out : Dict),
    (∀ kv ∈ out, kv.2.isNonFinite = false) →
    (∀ kv ∈ fm.foldl
      (fun out sd =>
        if dictContains row sd.1 then dictSet out sd.2 (clean (pyGet row sd.1))
        else out) out, kv.2.isNonFinite = false) := by
  intro fm
  induction fm with
  | nil => intro out h; exact h
  | cons sd rest ih =>
    intro out h
    apply ih
    intro kv hkv
    have hkv2 : kv ∈ (if dictContains row sd.1
        then dictSet out sd.2 (clean (pyGet row sd.1)) else out) := hkv
    by_cases hc : dictContains row sd.1
    · rw [if_pos hc] at hkv2
      rcases mem_dictSet hkv2 with h1 | h1
      · rw [h1]; exact isNonFinite_clean _
      · exact h kv h1
    · rw [if_neg hc] at hkv2
      exact h kv hkv2

theorem remap_phase2 (row : Dict) :
    ∀ (ks : List String) (out : Dict),
    (∀ k ∈ ks, k = "player_id" ∨ k = "team_id") →
    (∀ kv ∈ out, kv.2.isNonFinite = true →
      (kv.1 = "player_id" ∨ kv.1 = "team_id") ∧ dictFind row kv.1 = some kv.2) →
    (∀ kv ∈ ks.foldl
      (fun out k => if dictContains row k then dictSet out k (pyGet row k)
        else out) out, kv.2.isNonFinite = true →
      (kv.1 = "player_id" ∨ kv.1 = "team_id") ∧ dictFind row kv.1 = some kv.2) := by
  intro ks
  induction ks with
  | nil => intro out _ h; exact h
  | cons k rest ih =>
    intro out hks h
    apply ih
    · intro x hx; exact hks x (List.mem_cons_of_mem k hx)
    · intro kv hkv hnf
      have hkv2 : kv ∈ (if dictContains row k
          then dictSet out k (pyGet row k) else out) := hkv
      by_cases hc : dictContains row k
      · rw [if_pos hc] at hkv2
        rcases mem_dictSet hkv2 with h1 | h1
        · rw [h1]
          exact ⟨hks k (List.mem_cons_self k rest), dictFind_of_contains hc⟩
        · exact h kv h1 hnf
      · rw [if_neg hc] at hkv2
        exact h kv hkv2 hnf

/-- C9 (amended): every value copied through the field-map pass of `_remap`
is sanitized — a non-finite float can appear in the output only at the two
passthrough keys `player_id` / `team_id`, which are copied verbatim from
the source row without passing through `_clean` (contrary to the claim,
which asserts the passthrough keys are sanitized too; see the
counterexample). -/
theorem remap_sanitizes_mapped (row : Dict) (fieldMap : List (String × String)) :
    ∀ kv ∈ remap row fieldMap, kv.2.isNonFinite = true →
      (kv.1 = "player_id" ∨ kv.1 = "team_id")
      ∧ dictFind row kv.1 = some kv.2 := by
  intro kv hkv
  unfold remap at hkv
  refine remap_phase2 row passthroughKeys _ (by intro k hk; simpa [passthroughKeys] using hk) ?_ kv hkv
  intro kv2 hkv2 hnf
  have := remap_phase1 row fieldMap [] (by intro x hx; exact absurd hx (List.not_mem_nil x)) kv2 hkv2
  rw [this] at hnf
  exact absurd hnf (by simp)

/-- C9 witness: a NaN under the passthrough key survives `_remap` verbatim,
and the theorem locates it at a passthrough key with its source value. -/
theorem remap_sanitizes_mapped_witness :
    ("player_id", Val.vnan) ∈ remap [("player_id", Val.vnan)] PLAYER_FIELD_MAP
    ∧ Val.vnan.isNonFinite = true
    ∧ ((("player_id", Val.vnan).1 = "player_id"
        ∨ ("player_id", Val.vnan).1 = "team_id")
       ∧ dictFind [("player_id", Val.vnan)] ("player_id", Val.vnan).1
           = some ("player_id", Val.vnan).2) := by
  refine ⟨by decide, rfl, ?_⟩
  exact remap_sanitizes_mapped [("player_id", Val.vnan)] PLAYER_FIELD_MAP
    ("player_id", Val.vnan) (by decide) rfl

/-- C9 counterexample: the claim asserts no output value — the passthrough
keys included — is non-finite; but a NaN stored under player_id passes
through `_remap` unsanitized. -/
theorem remap_sanitizes_mapped_counterexample :
    remap [("player_id", Val.vnan)] PLAYER_FIELD_MAP
      = [("player_id", Val.vnan)]
    ∧ Val.vnan.isNonFinite = true := by
  refine ⟨by decide, rfl⟩

theorem filterMap_filter_congr {α β : Type} (f : α → Option β) (p : α → Bool) :
    ∀ (l : List α), (∀ x ∈ l, p x = false → f x = none) →
    (l.filter p).filterMap f = l.filterMap f := by
  intro l
  induction l with
  | nil => intro _; rfl
  | cons a rest ih =>
    intro h
    have hr := ih (fun x hx => h x (List.mem_cons_of_mem a hx))
    cases hp : p a with
    | true => simp [List.filter_cons, hp, List.filterMap_cons, hr]
    | false =>
      have ha : f a = none := h a (List.mem_cons_self a rest) hp
      simp [List.filter_cons, hp, List.filterMap_cons, ha, hr]

/-- C10: a fetched per-game player row whose upstream id is absent is
silently discarded by both consumers: get_player_games filters it out
before mapping, and fetch_and_store_games skips it, so it is neither
returned nor persisted — no slug identifier is synthesized for per-game
rows.  Stated as: both pipelines are unchanged by pre-filtering the rows to
those with an id, and an id-less row maps to nothing. -/
theorem absent_id_rows_discarded (tid : String) (rows : List Dict) (y : Int)
    (db : DB) :
    get_player_games_rows tid rows
      = get_player_games_rows tid
          (rows.filter (fun r => !(pyGet r "id" == Val.vnone)))
    ∧ rows.filterMap storeGameLogRow
      = (rows.filter (fun r => !(pyGet r "id" == Val.vnone))).filterMap
          storeGameLogRow
    ∧ (∀ row ∈ rows, pyGet row "id" = Val.vnone →
        gameLogKeep tid row = none ∧ storeGameLogRow row = none)
    ∧ fetch_and_store_games y (Except.ok rows) db
      = fetch_and_store_games y
          (Except.ok (rows.filter (fun r => !(pyGet r "id" == Val.vnone)))) db := by
  have hkeep : ∀ row : Dict, pyGet row "id" = Val.vnone →
      gameLogKeep tid row = none := by
    intro row h
    simp [gameLogKeep, h]
  have hstore : ∀ row : Dict, pyGet row "id" = Val.vnone →
      storeGameLogRow row = none := by
    intro row h
    simp [storeGameLogRow, h]
  have hpf : ∀ row ∈ rows, (!(pyGet row "id" == Val.vnone)) = false →
      pyGet row "id" = Val.vnone := by
    intro row _ h
    simpa using h
  have hfm : (rows.filter (fun r => !(pyGet r "id" == Val.vnone))).filterMap
      storeGameLogRow = rows.filterMap storeGameLogRow :=
    filterMap_filter_congr _ _ rows
      (fun x hx hp => hstore x (hpf x hx hp))
  have hfk : (rows.filter (fun r => !(pyGet r "id" == Val.vnone))).filterMap
      (gameLogKeep tid) = rows.filterMap (gameLogKeep tid) :=
    filterMap_filter_congr _ _ rows
      (fun x hx hp => hkeep x (hpf x hx hp))
  refine ⟨?_, hfm.symm, ?_, ?_⟩
  · unfold get_player_games_rows
    rw [hfk]
  · intro row hrow h
    exact ⟨hkeep row h, hstore row h⟩
  · show (if rows.isEmpty = true then ((0 : Int), db)
        else upsert_player_games y (rows.filterMap storeGameLogRow) db)
      = (if (rows.filter (fun r => !(pyGet r "id" == Val.vnone))).isEmpty = true
          then ((0 : Int), db)
          else upsert_player_games y
            ((rows.filter (fun r => !(pyGet r "id" == Val.vnone))).filterMap
              storeGameLogRow) db)
    by_cases h1 : rows.isEmpty = true
    · have he : rows = [] := by
        cases rows with
        | nil => rfl
        | cons a r => exact absurd h1 (by simp)
      subst he
      rfl
    · by_cases h2 : (rows.filter
          (fun r => !(pyGet r "id" == Val.vnone))).isEmpty = true
      · rw [if_neg h1, if_pos h2]
        have hnil : rows.filterMap storeGameLogRow = [] := by
          rw [← hfm]
          have hfe : rows.filter (fun r => !(pyGet r "id" == Val.vnone)) = [] := by
            cases hl : rows.filter (fun r => !(pyGet r "id" == Val.vnone)) with
            | nil => rfl
            | cons a r => rw [hl] at h2; exact absurd h2 (by simp)
          rw [hfe]
          rfl
        rw [hnil]
        rfl
      · rw [if_neg h1, if_neg h2, hfm]

theorem insertTG_no_conflicts : ∀ (recs : List TeamGame) (t : List TeamGame),
    (∀ g ∈ t, ∀ r ∈ recs, tgKeyMatch g r = false) →
    tgNodup recs = true →
    recs.foldl insertTeamGameRow t = t ++ recs := by
  intro recs
  induction recs with
  | nil => intro t _ _; simp
  | cons rec rs ih =>
    intro t h hnd
    have hnd2 := hnd
    simp only [tgNodup, Bool.and_eq_true, List.all_eq_true] at hnd2
    have hstep : insertTeamGameRow t rec = t ++ [rec] := by
      unfold insertTeamGameRow
      have hf : t.any (fun g => tgKeyMatch g rec) = false := by
        apply List.any_eq_false.mpr
        intro g hg
        rw [h g hg rec (List.mem_cons_self rec rs)]
        simp
      rw [hf]
      rfl
    show List.foldl insertTeamGameRow (insertTeamGameRow t rec) rs = t ++ rec :: rs
    rw [hstep, ih (t ++ [rec]) ?_ hnd2.2]
    · simp
    · intro g hg r hr
      rcases List.mem_append.mp hg with h1 | h1
      · exact h g h1 r (List.mem_cons_of_mem rec hr)
      · rw [List.mem_singleton] at h1
        subst h1
        have := hnd2.1 r hr
        simpa using this

theorem upsert_team_games_replaces (y : Int) (rows : List Dict) (db : DB)
    (hne : rows ≠ [])
    (hnodup : tgNodup (rows.map (toTeamGameRec y)) = true) :
    ((upsert_team_games y rows db).2).team_games
      = db.team_games.filter (fun g => !(g.year == y)) ++ rows.map (toTeamGameRec y)
    ∧ ((upsert_team_games y rows db).2).team_games.filter (fun g => g.year == y)
      = rows.map (toTeamGameRec y) := by
  have hemp : rows.isEmpty = false := by
    cases rows with
    | nil => exact absurd rfl hne
    | cons a r => rfl
  have hyrec : ∀ r ∈ rows.map (toTeamGameRec y), r.year = y := by
    intro r hr
    obtain ⟨row, _, heq⟩ := List.mem_map.mp hr
    rw [← heq]
    rfl
  have h1 : ((upsert_team_games y rows db).2).team_games
      = db.team_games.filter (fun g => !(g.year == y))
        ++ rows.map (toTeamGameRec y) := by
    unfold upsert_team_games
    rw [hemp]
    show (rows.map (toTeamGameRec y)).foldl insertTeamGameRow
      (db.team_games.filter (fun g => !(g.year == y))) = _
    apply insertTG_no_conflicts
    · intro g hg r hr
      have hgy : (g.year == y) = false := by
        have := (List.mem_filter.mp hg).2
        simpa using this
      unfold tgKeyMatch
      have : (g.year == r.year) = false := by
        rw [hyrec r hr]
        exact hgy
      rw [this]
      simp
    · exact hnodup
  refine ⟨h1, ?_⟩
  rw [h1, List.filter_append]
  have h2 : (db.team_games.filter (fun g => !(g.year == y))).filter
      (fun g => g.year == y) = [] := by
    apply List.filter_eq_nil_iff.mpr
    intro g hg
    have := (List.mem_filter.mp hg).2
    simpa using this
  have h3 : (rows.map (toTeamGameRec y)).filter (fun g => g.year == y)
      = rows.map (toTeamGameRec y) := by
    apply List.filter_eq_self.mpr
    intro g hg
    rw [hyrec g hg]
    simp
  rw [h2, h3]
  rfl

theorem upsert_player_games_replaces (y : Int) (rows : List Dict) (db : DB)
    (hne : rows ≠ []) :
    ((upsert_player_games y rows db).2).player_games
      = db.player_games.filter (fun g => !(g.year == y))
        ++ rows.map (toPlayerGameRec y)
    ∧ ((upsert_player_games y rows db).2).player_games.filter
        (fun g => g.year == y) = rows.map (toPlayerGameRec y) := by
  have hemp : rows.isEmpty = false := by
    cases rows with
    | nil => exact absurd rfl hne
    | cons a r => rfl
  have hyrec : ∀ r ∈ rows.map (toPlayerGameRec y), r.year = y := by
    intro r hr
    obtain ⟨row, _, heq⟩ := List.mem_map.mp hr
    rw [← heq]
    rfl
  have h1 : ((upsert_player_games y rows db).2).player_games
      = db.player_games.filter (fun g => !(g.year == y))
        ++ rows.map (toPlayerGameRec y) := by
    unfold upsert_player_games
    rw [hemp]
    rfl
  refine ⟨h1, ?_⟩
  rw [h1, List.filter_append]
  have h2 : (db.player_games.filter (fun g => !(g.year == y))).filter
      (fun g => g.year == y) = [] := by
    apply List.filter_eq_nil_iff.mpr
    intro g hg
    have := (List.mem_filter.mp hg).2
    simpa using this
  have h3 : (rows.map (toPlayerGameRec y)).filter (fun g => g.year == y)
      = rows.map (toPlayerGameRec y) := by
    apply List.filter_eq_self.mpr
    intro g hg
    rw [hyrec g hg]
    simp
  rw [h2, h3]
  rfl

/-- C1 (amended): for a NON-EMPTY second input, running a game-level upsert
twice for the same year leaves exactly the second input's records persisted
for that year, whatever the first input was: the second run deletes every
row of the year and bulk-inserts its own records (for team_games, under
pairwise-distinct (team_id, year, game_id) keys, since ON CONFLICT DO
NOTHING drops duplicate keys).  An EMPTY second input, contrary to the
claim, is a no-op — both upserts return before deleting anything — so the
first input's rows survive (see the counterexample). -/
theorem game_tables_full_replacement (y : Int) (db : DB)
    (tg1 tg2 pg1 pg2 : List Dict)
    (htg : tg2 ≠ []) (hpg : pg2 ≠ [])
    (hnd : tgNodup (tg2.map (toTeamGameRec y)) = true) :
    ((upsert_team_games y tg2
        ((upsert_team_games y tg1 db).2)).2).team_games.filter
          (fun g => g.year == y) = tg2.map (toTeamGameRec y)
    ∧ ((upsert_player_games y pg2
        ((upsert_player_games y pg1 db).2)).2).player_games.filter
          (fun g => g.year == y) = pg2.map (toPlayerGameRec y) :=
  ⟨(upsert_team_games_replaces y tg2 _ htg hnd).2,
   (upsert_player_games_replaces y pg2 _ hpg).2⟩

/-- C1 witness: replacing the year's games of a seeded store with one fresh
record of each kind leaves exactly the fresh records. -/
theorem game_tables_full_replacement_witness :
    ([dictGameB] : List Dict) ≠ []
    ∧ ([dictPG] : List Dict) ≠ []
    ∧ tgNodup ([dictGameB].map (toTeamGameRec 2024)) = true
    ∧ ((upsert_team_games 2024 [dictGameB]
        ((upsert_team_games 2024 [dictGameA] emptyDB).2)).2).team_games.filter
          (fun g => g.year == 2024) = [dictGameB].map (toTeamGameRec 2024)
    ∧ ((upsert_player_games 2024 [dictPG]
        ((upsert_player_games 2024 [] emptyDB).2)).2).player_games.filter
          (fun g => g.year == 2024) = [dictPG].map (toPlayerGameRec 2024) := by
  have h := game_tables_full_replacement 2024 emptyDB [dictGameA] [dictGameB]
    [] [dictPG] (by decide) (by decide) (by decide)
  exact ⟨by decide, by decide, by decide, h.1, h.2⟩

/-- C1 counterexample: with an EMPTY second input the claim demands an
empty persisted row set for the year, but both game-level upserts return
before deleting, so the first run's rows remain. -/
theorem game_tables_full_replacement_counterexample :
    ((upsert_team_games 2024 []
        ((upsert_team_games 2024 [dictGameA] emptyDB).2)).2).team_games.filter
          (fun g => g.year == 2024) = [toTeamGameRec 2024 dictGameA]
    ∧ [toTeamGameRec 2024 dictGameA] ≠ ([] : List TeamGame)
    ∧ ((upsert_player_games 2024 []
        ((upsert_player_games 2024 [dictPG] emptyDB).2)).2).player_games.filter
          (fun g => g.year == 2024) = [toPlayerGameRec 2024 dictPG]
    ∧ [toPlayerGameRec 2024 dictPG] ≠ ([] : List PlayerGame) := by
  refine ⟨by decide, by decide, by decide, by decide⟩

section KeyedUpsertLemmas

variable {α κ : Type} [DecidableEq κ]

theorem upsertRow_append (keyOf : α → κ) (merge : α → α → α)
    (t : List α) (rec : α)
    (h : (t.any (fun r => keyOf r == keyOf rec)) = false) :
    upsertRow keyOf merge t rec = t ++ [rec] := by
  unfold upsertRow
  rw [h]
  rfl

theorem upsertRow_overwrite (keyOf : α → κ) (merge : α → α → α)
    (t : List α) (rec : α)
    (h : (t.any (fun r => keyOf r == keyOf rec)) = true) :
    upsertRow keyOf merge t rec
      = t.map (fun r => if keyOf r == keyOf rec then merge r rec else r) := by
  unfold upsertRow
  rw [h]
  rfl

theorem keyOf_overwrite_fn (keyOf : α → κ) (merge : α → α → α)
    (hKey : ∀ x r, keyOf x = keyOf r → keyOf (merge x r) = keyOf r)
    (rec a : α) :
    keyOf (if keyOf a == keyOf rec then merge a rec else a) = keyOf a := by
  by_cases h : (keyOf a == keyOf rec) = true
  · rw [if_pos h]
    have he : keyOf a = keyOf rec := by simpa using h
    rw [hKey a rec he, he]
  · rw [if_neg h]

theorem hasKey_upsertRow (keyOf : α → κ) (merge : α → α → α)
    (hKey : ∀ x r, keyOf x = keyOf r → keyOf (merge x r) = keyOf r)
    (t : List α) (rec : α) (k : κ) (h : hasKey keyOf t k) :
    hasKey keyOf (upsertRow keyOf merge t rec) k := by
  by_cases ha : (t.any (fun r => keyOf r == keyOf rec)) = true
  · rw [upsertRow_overwrite keyOf merge t rec ha]
    obtain ⟨r, hr, hkr⟩ := h
    exact ⟨_, List.mem_map_of_mem _ hr,
      by rw [keyOf_overwrite_fn keyOf merge hKey rec r]; exact hkr⟩
  · rw [upsertRow_append keyOf merge t rec (by simpa using ha)]
    obtain ⟨r, hr, hkr⟩ := h
    exact ⟨r, List.mem_append_left _ hr, hkr⟩

theorem hasKey_rec_upsertRow (keyOf : α → κ) (merge : α → α → α)
    (hKey : ∀ x r, keyOf x = keyOf r → keyOf (merge x r) = keyOf r)
    (t : List α) (rec : α) :
    hasKey keyOf (upsertRow keyOf merge t rec) (keyOf rec) := by
  by_cases ha : (t.any (fun r => keyOf r == keyOf rec)) = true
  · rw [upsertRow_overwrite keyOf merge t rec ha]
    obtain ⟨r, hr, hkr⟩ : ∃ r ∈ t, (keyOf r == keyOf rec) = true :=
      List.any_eq_true.mp ha
    have he : keyOf r = keyOf rec := by simpa using hkr
    refine ⟨_, List.mem_map_of_mem _ hr, ?_⟩
    rw [if_pos hkr]
    exact hKey r rec he
  · rw [upsertRow_append keyOf merge t rec (by simpa using ha)]
    exact ⟨rec, List.mem_append_right _ (List.mem_singleton_self rec), rfl⟩

theorem hasKey_upsertAll (keyOf : α → κ) (merge : α → α → α)
    (hKey : ∀ x r, keyOf x = keyOf r → keyOf (merge x r) = keyOf r) :
    ∀ (rows : List α) (t : List α) (k : κ), hasKey keyOf t k →
    hasKey keyOf (upsertAll keyOf merge t rows) k := by
  intro rows
  induction rows with
  | nil => intro t k h; exact h
  | cons rec rs ih =>
    intro t k h
    exact ih (upsertRow keyOf merge t rec) k
      (hasKey_upsertRow keyOf merge hKey t rec k h)

theorem hasKey_upsertAll_mem (keyOf : α → κ) (merge : α → α → α)
    (hKey : ∀ x r, keyOf x = keyOf r → keyOf (merge x r) = keyOf r) :
    ∀ (rows : List α) (t : List α) (rec : α), rec ∈ rows →
    hasKey keyOf (upsertAll keyOf merge t rows) (keyOf rec) := by
  intro rows
  induction rows with
  | nil => intro t rec h; exact absurd h (List.not_mem_nil rec)
  | cons r rs ih =>
    intro t rec h
    rcases List.mem_cons.mp h with he | hmem
    · subst he
      exact hasKey_upsertAll keyOf merge hKey rs _ _
        (hasKey_rec_upsertRow keyOf merge hKey t rec)
    · exact ih (upsertRow keyOf merge t r) rec hmem

theorem fixed_upsertRow (keyOf : α → κ) (merge : α → α → α)
    (hOver : ∀ x a b, merge (merge x a) b = merge x b)
    (hSelf : ∀ r, merge r r = r)
    (t : List α) (rec : α) :
    ∀ x ∈ upsertRow keyOf merge t rec, keyOf x = keyOf rec →
      merge x rec = x := by
  intro x hx hkx
  by_cases ha : (t.any (fun r => keyOf r == keyOf rec)) = true
  · rw [upsertRow_overwrite keyOf merge t rec ha] at hx
    obtain ⟨a, _, heq⟩ := List.mem_map.mp hx
    by_cases hm : (keyOf a == keyOf rec) = true
    · rw [if_pos hm] at heq
      rw [← heq]
      exact hOver a rec rec
    · rw [if_neg hm] at heq
      rw [← heq] at hkx
      exact absurd hkx (by simpa using hm)
  · rw [upsertRow_append keyOf merge t rec (by simpa using ha)] at hx
    rcases List.mem_append.mp hx with h1 | h1
    · have hall : ∀ r ∈ t, ¬ keyOf r = keyOf rec := by simpa using ha
      exact absurd hkx (hall x h1)
    · rw [List.mem_singleton] at h1
      rw [h1]
      exact hSelf rec

theorem fixedP_upsertAll (keyOf : α → κ) (merge : α → α → α)
    (hKey : ∀ x r, keyOf x = keyOf r → keyOf (merge x r) = keyOf r)
    (rec : α) :
    ∀ (rows : List α) (t : List α),
    (∀ r2 ∈ rows, keyOf r2 ≠ keyOf rec) →
    (∀ x ∈ t, keyOf x = keyOf rec → merge x rec = x) →
    (∀ x ∈ upsertAll keyOf merge t rows, keyOf x = keyOf rec →
      merge x rec = x) := by
  intro rows
  induction rows with
  | nil => intro t _ h; exact h
  | cons r2 rs ih =>
    intro t hks h
    apply ih (upsertRow keyOf merge t r2)
      (fun x hx => hks x (List.mem_cons_of_mem r2 hx))
    intro x hx hkx
    by_cases ha : (t.any (fun r => keyOf r == keyOf r2)) = true
    · rw [upsertRow_overwrite keyOf merge t r2 ha] at hx
      obtain ⟨a, hat, heq⟩ := List.mem_map.mp hx
      by_cases hm : (keyOf a == keyOf r2) = true
      · rw [if_pos hm] at heq
        have he : keyOf a = keyOf r2 := by simpa using hm
        have hx2 : keyOf x = keyOf r2 := by
          rw [← heq]
          exact hKey a r2 he
        exact absurd (hx2.symm.trans hkx)
          (hks r2 (List.mem_cons_self r2 rs))
      · rw [if_neg hm] at heq
        have hka2 : keyOf a = keyOf rec := by rw [heq]; exact hkx
        rw [← heq]
        exact h a hat hka2
    · rw [upsertRow_append keyOf merge t r2 (by simpa using ha)] at hx
      rcases List.mem_append.mp hx with h1 | h1
      · exact h x h1 hkx
      · rw [List.mem_singleton] at h1
        rw [h1] at hkx
        exact absurd hkx (hks r2 (List.mem_cons_self r2 rs))

theorem overwrite_id (keyOf : α → κ) (merge : α → α → α)
    (t : List α) (rec : α)
    (h : ∀ x ∈ t, keyOf x = keyOf rec → merge x rec = x) :
    t.map (fun r => if keyOf r == keyOf rec then merge r rec else r) = t := by
  induction t with
  | nil => rfl
  | cons a rest ih =>
    simp only [List.map_cons]
    rw [ih (fun x hx => h x (List.mem_cons_of_mem a hx))]
    congr 1
    by_cases hm : (keyOf a == keyOf rec) = true
    · rw [if_pos hm]
      exact h a (List.mem_cons_self a rest) (by simpa using hm)
    · rw [if_neg hm]

theorem any_congr (keyOf : α → κ) {t t2 : List α}
    (h : List.Forall₂ (fun a b => keyOf a = keyOf b) t t2) (k : κ) :
    (t.any (fun r => keyOf r == k)) = (t2.any (fun r => keyOf r == k)) := by
  induction h with
  | nil => rfl
  | cons hab _ ihm =>
    simp only [List.any_cons, hab, ihm]

theorem forall₂_eq_of_no_key (keyOf : α → κ) (merge : α → α → α) (k : κ) :
    ∀ {t t2 : List α}, List.Forall₂ (mergeRel keyOf merge k) t t2 →
    (∀ a ∈ t, keyOf a ≠ k) → t = t2 := by
  intro t t2 h
  induction h with
  | nil => intro _; rfl
  | cons hab hrest ihm =>
    rename_i a b l1 l2
    intro hno
    have ha : a = b := by
      rcases hab.2 with he | ⟨hka, _⟩
      · exact he
      · exact absurd hka (hno a (List.mem_cons_self a l1))
    rw [ha, ihm (fun x hx => hno x (List.mem_cons_of_mem a hx))]

theorem congr_upsertAll (keyOf : α → κ) (merge : α → α → α)
    (hKey : ∀ x r, keyOf x = keyOf r → keyOf (merge x r) = keyOf r) :
    ∀ (rows : List α) (t t2 : List α) (k : κ),
    (∃ r ∈ rows, keyOf r = k) →
    List.Forall₂ (mergeRel keyOf merge k) t t2 →
    upsertAll keyOf merge t rows = upsertAll keyOf merge t2 rows := by
  intro rows
  induction rows with
  | nil =>
    intro t t2 k hw _
    obtain ⟨r, hr, _⟩ := hw
    exact absurd hr (List.not_mem_nil r)
  | cons rc rs ih =>
    intro t t2 k hw hF
    have hkeys : List.Forall₂ (fun a b => keyOf a = keyOf b) t t2 :=
      hF.imp (fun _ _ h => h.1)
    have hany : (t.any (fun r => keyOf r == keyOf rc))
        = (t2.any (fun r => keyOf r == keyOf rc)) :=
      any_congr keyOf hkeys (keyOf rc)
    show upsertAll keyOf merge (upsertRow keyOf merge t rc) rs
      = upsertAll keyOf merge (upsertRow keyOf merge t2 rc) rs
    by_cases hca : (t.any (fun r => keyOf r == keyOf rc)) = true
    · rw [upsertRow_overwrite keyOf merge t rc hca,
        upsertRow_overwrite keyOf merge t2 rc (hany ▸ hca)]
      by_cases hk2 : keyOf rc = k
      · have heq : t.map (fun r => if keyOf r == keyOf rc then merge r rc else r)
            = t2.map (fun r => if keyOf r == keyOf rc then merge r rc else r) := by
          clear hca hany hkeys hw ih
          induction hF with
          | nil => rfl
          | cons hab hrest ihm =>
            rename_i a b l1 l2
            simp only [List.map_cons]
            rw [ihm]
            congr 1
            by_cases hm : (keyOf a == keyOf rc) = true
            · rw [if_pos hm, if_pos (by rw [← hab.1]; exact hm)]
              rcases hab.2 with he | ⟨_, hmer⟩
              · rw [he]
              · exact hmer rc
            · rw [if_neg hm, if_neg (by rw [← hab.1]; exact hm)]
              rcases hab.2 with he | ⟨hka, _⟩
              · exact he
              · exact absurd (show keyOf a = keyOf rc by rw [hka, ← hk2])
                  (by simpa using hm)
        rw [heq]
      · have hw2 : ∃ r ∈ rs, keyOf r = k := by
          obtain ⟨r, hr, hkr⟩ := hw
          rcases List.mem_cons.mp hr with he | hmem
          · rw [he] at hkr; exact absurd hkr hk2
          · exact ⟨r, hmem, hkr⟩
        apply ih _ _ k hw2
        clear hca hany hkeys hw ih
        induction hF with
        | nil => exact List.Forall₂.nil
        | cons hab hrest ihm =>
          rename_i a b l1 l2
          simp only [List.map_cons]
          refine List.Forall₂.cons ?_ ihm
          refine ⟨?_, ?_⟩
          · rw [keyOf_overwrite_fn keyOf merge hKey rc a,
              keyOf_overwrite_fn keyOf merge hKey rc b]
            exact hab.1
          · rcases hab.2 with he | ⟨hka, hmer⟩
            · rw [he]
              exact Or.inl rfl
            · have hne : (keyOf a == keyOf rc) = false := by
                simp only [beq_eq_false_iff_ne, ne_eq]
                intro hcon
                exact hk2 (hcon.symm.trans hka)
              have hneb : (keyOf b == keyOf rc) = false := by
                rw [← hab.1]
                exact hne
              rw [if_neg (by simp [hne]), if_neg (by simp [hneb])]
              exact Or.inr ⟨hka, hmer⟩
    · rw [upsertRow_append keyOf merge t rc (by simpa using hca),
        upsertRow_append keyOf merge t2 rc
          (by rw [← hany]; simpa using hca)]
      by_cases hk2 : keyOf rc = k
      · have hno : ∀ a ∈ t, keyOf a ≠ k := by
          have hall : ∀ r ∈ t, ¬ keyOf r = keyOf rc := by simpa using hca
          intro a hat hcon
          exact hall a hat (by rw [hcon, ← hk2])
        rw [forall₂_eq_of_no_key keyOf merge k hF hno]
      · have hw2 : ∃ r ∈ rs, keyOf r = k := by
          obtain ⟨r, hr, hkr⟩ := hw
          rcases List.mem_cons.mp hr with he | hmem
          · rw [he] at hkr; exact absurd hkr hk2
          · exact ⟨r, hmem, hkr⟩
        apply ih _ _ k hw2
        exact List.rel_append hF
          (List.Forall₂.cons ⟨rfl, Or.inl rfl⟩ List.Forall₂.nil)

theorem forall₂_overwrite_self (keyOf : α → κ) (merge : α → α → α)
    (hKey : ∀ x r, keyOf x = keyOf r → keyOf (merge x r) = keyOf r)
    (hOver : ∀ x a b, merge (merge x a) b = merge x b)
    (rec : α) (t : List α) :
    List.Forall₂ (mergeRel keyOf merge (keyOf rec))
      (t.map (fun r => if keyOf r == keyOf rec then merge r rec else r)) t := by
  induction t with
  | nil => exact List.Forall₂.nil
  | cons a rest ih =>
    simp only [List.map_cons]
    refine List.Forall₂.cons ?_ ih
    by_cases hm : (keyOf a == keyOf rec) = true
    · rw [if_pos hm]
      have he : keyOf a = keyOf rec := by simpa using hm
      refine ⟨?_, Or.inr ⟨?_, ?_⟩⟩
      · rw [hKey a rec he]
        exact he.symm
      · exact hKey a rec he
      · intro c
        exact hOver a rec c
    · rw [if_neg hm]
      exact ⟨rfl, Or.inl rfl⟩

theorem upsertAll_idem (keyOf : α → κ) (merge : α → α → α)
    (hOver : ∀ x a b, merge (merge x a) b = merge x b)
    (hSelf : ∀ r, merge r r = r)
    (hKey : ∀ x r, keyOf x = keyOf r → keyOf (merge x r) = keyOf r) :
    ∀ (rows : List α) (t : List α),
    upsertAll keyOf merge (upsertAll keyOf merge t rows) rows
      = upsertAll keyOf merge t rows := by
  intro rows
  induction rows with
  | nil => intro t; rfl
  | cons rec rs ih =>
    intro t
    show upsertAll keyOf merge
      (upsertRow keyOf merge
        (upsertAll keyOf merge (upsertRow keyOf merge t rec) rs) rec) rs
      = upsertAll keyOf merge (upsertRow keyOf merge t rec) rs
    set A := upsertRow keyOf merge t rec with hA
    set T1 := upsertAll keyOf merge A rs with hT1
    have hIH : upsertAll keyOf merge T1 rs = T1 := ih A
    have hk : hasKey keyOf T1 (keyOf rec) :=
      hasKey_upsertAll keyOf merge hKey rs A (keyOf rec)
        (hasKey_rec_upsertRow keyOf merge hKey t rec)
    have hanyT1 : (T1.any (fun r => keyOf r == keyOf rec)) = true := by
      obtain ⟨r, hr, hkr⟩ := hk
      exact List.any_eq_true.mpr ⟨r, hr, by simpa using hkr⟩
    by_cases hcase : ∃ r ∈ rs, keyOf r = keyOf rec
    · rw [upsertRow_overwrite keyOf merge T1 rec hanyT1]
      rw [congr_upsertAll keyOf merge hKey rs _ T1 (keyOf rec) hcase
        (forall₂_overwrite_self keyOf merge hKey hOver rec T1)]
      exact hIH
    · push_neg at hcase
      have hfixA : ∀ x ∈ A, keyOf x = keyOf rec → merge x rec = x :=
        fixed_upsertRow keyOf merge hOver hSelf t rec
      have hfixT1 : ∀ x ∈ T1, keyOf x = keyOf rec → merge x rec = x :=
        fixedP_upsertAll keyOf merge hKey rec rs A hcase hfixA
      have hid : upsertRow keyOf merge T1 rec = T1 := by
        rw [upsertRow_overwrite keyOf merge T1 rec hanyT1]
        exact overwrite_id keyOf merge T1 rec hfixT1
      rw [hid]
      exact hIH

theorem nodupP_upsertRow (keyOf : α → κ) (merge : α → α → α)
    (hKey : ∀ x r, keyOf x = keyOf r → keyOf (merge x r) = keyOf r)
    (t : List α) (rec : α) (h : nodupKeysP keyOf t) :
    nodupKeysP keyOf (upsertRow keyOf merge t rec) := by
  by_cases hca : (t.any (fun r => keyOf r == keyOf rec)) = true
  · rw [upsertRow_overwrite keyOf merge t rec hca]
    unfold nodupKeysP at h ⊢
    rw [List.pairwise_map]
    exact h.imp (fun hab => by
      rw [keyOf_overwrite_fn keyOf merge hKey rec _,
        keyOf_overwrite_fn keyOf merge hKey rec _]
      exact hab)
  · rw [upsertRow_append keyOf merge t rec (by simpa using hca)]
    unfold nodupKeysP at h ⊢
    rw [List.pairwise_append]
    refine ⟨h, List.pairwise_singleton _ _, ?_⟩
    intro a ha b hb
    rw [List.mem_singleton] at hb
    have hall : ∀ r ∈ t, ¬ keyOf r = keyOf rec := by simpa using hca
    rw [hb]
    exact hall a ha

theorem nodupP_upsertAll (keyOf : α → κ) (merge : α → α → α)
    (hKey : ∀ x r, keyOf x = keyOf r → keyOf (merge x r) = keyOf r) :
    ∀ (rows : List α) (t : List α), nodupKeysP keyOf t →
    nodupKeysP keyOf (upsertAll keyOf merge t rows) := by
  intro rows
  induction rows with
  | nil => intro t h; exact h
  | cons rec rs ih =>
    intro t h
    exact ih (upsertRow keyOf merge t rec)
      (nodupP_upsertRow keyOf merge hKey t rec h)

theorem countKey_one (keyOf : α → κ) :
    ∀ (t : List α) (k : κ), nodupKeysP keyOf t → hasKey keyOf t k →
    t.countP (fun r => decide (keyOf r = k)) = 1 := by
  intro t
  induction t with
  | nil =>
    intro k _ hk
    obtain ⟨r, hr, _⟩ := hk
    exact absurd hr (List.not_mem_nil r)
  | cons a rest ih =>
    intro k h hk
    unfold nodupKeysP at h
    rw [List.pairwise_cons] at h
    rw [List.countP_cons]
    by_cases hak : keyOf a = k
    · have hz : rest.countP (fun r => decide (keyOf r = k)) = 0 := by
        apply List.countP_eq_zero.mpr
        intro r hr
        have hne := h.1 r hr
        simp only [decide_eq_true_eq]
        intro hcon
        exact hne (hak.trans hcon.symm)
      rw [hz]
      simp [hak]
    · have hpa : (decide (keyOf a = k)) = false := by
        simpa using hak
      rw [hpa]
      have hrest : hasKey keyOf rest k := by
        obtain ⟨r, hr, hkr⟩ := hk
        rcases List.mem_cons.mp hr with he | hmem
        · rw [he] at hkr; exact absurd hkr hak
        · exact ⟨r, hmem, hkr⟩
      rw [ih k h.2 hrest]
      simp

end KeyedUpsertLemmas

theorem psMerge_over : ∀ x a b, psMerge (psMerge x a) b = psMerge x b :=
  fun _ _ _ => rfl

theorem psMerge_self : ∀ r, psMerge r r = r := fun _ => rfl

theorem psMerge_key : ∀ x r, psKey x = psKey r → psKey (psMerge x r) = psKey r :=
  fun _ _ _ => rfl

theorem tsMerge_over : ∀ x a b, tsMerge (tsMerge x a) b = tsMerge x b :=
  fun _ _ _ => rfl

theorem tsMerge_self : ∀ r, tsMerge r r = r := fun _ => rfl

theorem tsMerge_key : ∀ x r, tsKey x = tsKey r → tsKey (tsMerge x r) = tsKey r :=
  fun x r h => (rfl : tsKey (tsMerge x r) = tsKey x).trans h

/-- C5 (amended): the season-level upserts are idempotent — re-running one
with the identical input over the resulting store changes nothing, and each
input row's primary key holds exactly one persisted row (given the
primary-key invariant on the initial table).  On key conflict
upsert_player_seasons overwrites every non-key column, but
upsert_team_seasons overwrites only the eleven upstream T-Rank columns and
leaves the derived columns (record, wins, losses, four factors) untouched —
the claim's "every non-key column is overwritten" fails there (see the
counterexample). -/
theorem season_upserts_idempotent (y : Int) (db : DB)
    (prows trows : List Dict)
    (hp : nodupKeysP psKey db.player_seasons)
    (ht : nodupKeysP tsKey db.team_seasons) :
    ((upsert_player_seasons y prows
        ((upsert_player_seasons y prows db).2)).2).player_seasons
      = ((upsert_player_seasons y prows db).2).player_seasons
    ∧ ((upsert_team_seasons y trows
        ((upsert_team_seasons y trows db).2)).2).team_seasons
      = ((upsert_team_seasons y trows db).2).team_seasons
    ∧ (∀ row ∈ prows,
        ((upsert_player_seasons y prows db).2).player_seasons.countP
          (fun r => decide (psKey r = (pyGet row "player_id", y))) = 1)
    ∧ (∀ row ∈ trows,
        ((upsert_team_seasons y trows db).2).team_seasons.countP
          (fun r => decide (tsKey r = (pyGet row "team_id", y))) = 1) := by
  refine ⟨?_, ?_, ?_, ?_⟩
  · by_cases hpe : prows.isEmpty = true
    · unfold upsert_player_seasons
      rw [hpe]
      rfl
    · have hf : prows.isEmpty = false := by
        cases hb : prows.isEmpty
        · rfl
        · exact absurd hb hpe
      unfold upsert_player_seasons
      rw [hf]
      show upsertAll psKey psMerge
        (upsertAll psKey psMerge db.player_seasons
          (prows.map (toPlayerSeasonRec y))) (prows.map (toPlayerSeasonRec y))
        = upsertAll psKey psMerge db.player_seasons
            (prows.map (toPlayerSeasonRec y))
      exact upsertAll_idem psKey psMerge psMerge_over psMerge_self psMerge_key
        (prows.map (toPlayerSeasonRec y)) db.player_seasons
  · by_cases hpe : trows.isEmpty = true
    · unfold upsert_team_seasons
      rw [hpe]
      rfl
    · have hf : trows.isEmpty = false := by
        cases hb : trows.isEmpty
        · rfl
        · exact absurd hb hpe
      unfold upsert_team_seasons
      rw [hf]
      show upsertAll tsKey tsMerge
        (upsertAll tsKey tsMerge db.team_seasons
          (trows.map (toTeamSeasonRec y))) (trows.map (toTeamSeasonRec y))
        = upsertAll tsKey tsMerge db.team_seasons
            (trows.map (toTeamSeasonRec y))
      exact upsertAll_idem tsKey tsMerge tsMerge_over tsMerge_self tsMerge_key
        (trows.map (toTeamSeasonRec y)) db.team_seasons
  · intro row hrow
    have hf : prows.isEmpty = false := by
      cases prows with
      | nil => exact absurd hrow (List.not_mem_nil row)
      | cons a r => rfl
    unfold upsert_player_seasons
    rw [hf]
    show (upsertAll psKey psMerge db.player_seasons
      (prows.map (toPlayerSeasonRec y))).countP
        (fun r => decide (psKey r = (pyGet row "player_id", y))) = 1
    apply countKey_one psKey
    · exact nodupP_upsertAll psKey psMerge psMerge_key _ _ hp
    · exact hasKey_upsertAll_mem psKey psMerge psMerge_key _ _ _
        (List.mem_map_of_mem (toPlayerSeasonRec y) hrow)
  · intro row hrow
    have hf : trows.isEmpty = false := by
      cases trows with
      | nil => exact absurd hrow (List.not_mem_nil row)
      | cons a r => rfl
    unfold upsert_team_seasons
    rw [hf]
    show (upsertAll tsKey tsMerge db.team_seasons
      (trows.map (toTeamSeasonRec y))).countP
        (fun r => decide (tsKey r = (pyGet row "team_id", y))) = 1
    apply countKey_one tsKey
    · exact nodupP_upsertAll tsKey tsMerge tsMerge_key _ _ ht
    · exact hasKey_upsertAll_mem tsKey tsMerge tsMerge_key _ _ _
        (List.mem_map_of_mem (toTeamSeasonRec y) hrow)

/-- C5 witness: the idempotence theorem applied to an empty store with one
player-season and one team-season input row. -/
theorem season_upserts_idempotent_witness :
    nodupKeysP psKey emptyDB.player_seasons
    ∧ nodupKeysP tsKey emptyDB.team_seasons
    ∧ ((upsert_player_seasons 2024 [dictPS]
        ((upsert_player_seasons 2024 [dictPS] emptyDB).2)).2).player_seasons
      = ((upsert_player_seasons 2024 [dictPS] emptyDB).2).player_seasons
    ∧ ((upsert_team_seasons 2024 [dictTS]
        ((upsert_team_seasons 2024 [dictTS] emptyDB).2)).2).team_seasons
      = ((upsert_team_seasons 2024 [dictTS] emptyDB).2).team_seasons
    ∧ ((upsert_player_seasons 2024 [dictPS] emptyDB).2).player_seasons.countP
        (fun r => decide (psKey r = (pyGet dictPS "player_id", 2024))) = 1 := by
  have h := season_upserts_idempotent 2024 emptyDB [dictPS] [dictTS]
    List.Pairwise.nil List.Pairwise.nil
  exact ⟨List.Pairwise.nil, List.Pairwise.nil, h.1, h.2.1,
    h.2.2.1 dictPS (List.mem_singleton_self dictPS)⟩

/-- C5 counterexample: the claim says a key conflict overwrites every
non-key column; but upsert_team_seasons leaves the derived record column of
the conflicting row untouched ("1-1" survives), while the incoming record
value is NULL. -/
theorem season_upserts_idempotent_counterexample :
    ((upsert_team_seasons 2024 [dictTS] dbC5x).2).team_seasons.map
        (fun ts => ts.record) = [Val.vstr "1-1"]
    ∧ ((upsert_team_seasons 2024 [dictTS] dbC5x).2).team_seasons.map
        (fun ts => ts.name) = [Val.vstr "Duke"]
    ∧ (toTeamSeasonRec 2024 dictTS).record = Val.vnone
    ∧ Val.vstr "1-1" ≠ Val.vnone := by
  refine ⟨by decide, by decide, by decide, by decide⟩

end CbbAnalytics
